import Mathlib

/-!
# Verification of the cli-tunnel bridge server (src/index.ts, v1.1)

A shallow embedding of the bridge server's security-relevant state and
operations, translated from `src/index.ts` and `src/redact.ts`:

* the one-time ticket store (`tickets` map, `/api/auth/ticket` handler,
  `verifyClient` redemption);
* the per-IP rate limiter (`checkRateLimit` and the two limiter maps);
* the viewer-connection manager (caps, heartbeat, replay, broadcast),
  modelled as an event-step machine — the server runs on Node's
  single-threaded event loop, so each I/O callback executes atomically
  and the machine's steps are exactly those callbacks;
* the environment filter for the spawned PTY (`DANGEROUS_VARS`,
  `sensitivePattern`, `safeEnv`);
* the hub's `/api/proxy/ticket/:port` handler;
* the HTTP dispatcher's routing and auth order;
* `redactSecrets`, embedded via a small backtracking matcher that
  implements exactly the JavaScript regex features the twelve patterns
  use (literal alternation, character-class repetition with greedy and
  lazy semantics, case-insensitive flags, sequential global replace).

Machine integers do not occur: all JS numbers involved are small
non-negative integers (timestamps in ms, counts, ports), modelled as `Nat`.
Time (`Date.now()`) is passed explicitly.
-/

namespace CliTunnel

/-! ## Finite maps as association lists

`Map` in JS keeps one entry per key; the maps below are only ever built
by `set`/`delete` from empty, so keys stay distinct.  `mset` replaces in
place (JS `Map.set` keeps insertion order for existing keys), `mdel`
removes the key's entry. -/

def mget {α : Type} (m : List (String × α)) (k : String) : Option α :=
  (m.find? (fun p => p.1 = k)).map (fun p => p.2)

def mset {α : Type} (m : List (String × α)) (k : String) (v : α) :
    List (String × α) :=
  match m with
  | [] => [(k, v)]
  | p :: rest => if p.1 = k then (k, v) :: rest else p :: mset rest k v

def mdel {α : Type} (m : List (String × α)) (k : String) :
    List (String × α) :=
  m.filter (fun p => ¬ p.1 = k)

/-! ## Ticket store  (src/index.ts lines 522–531, 599–608, 767–775)

`tickets : Map<string, { expires: number }>`.  The `/api/auth/ticket`
handler inserts a fresh UUID expiring 60 s out; `verifyClient` redeems:
it deletes the entry as soon as it is found, and the redemption succeeds
iff the entry existed and `t.expires > Date.now()`. -/

abbrev TicketMap := List (String × Nat)

/-- The insertion performed by the `/api/auth/ticket` handler:
`tickets.set(ticket, { expires: Date.now() + 60000 })`. -/
def ticketIssue (now : Nat) (ts : TicketMap) (newId : String) : TicketMap :=
  mset ts newId (now + 60000)

/-- The redemption step inside `verifyClient`:
`if (ticket && tickets.has(ticket)) { const t = tickets.get(ticket)!;
tickets.delete(ticket); return t.expires > Date.now(); } return false;` -/
def ticketRedeem (now : Nat) (ts : TicketMap) (tid : String) :
    Bool × TicketMap :=
  match mget ts tid with
  | some exp => (decide (exp > now), mdel ts tid)
  | none => (false, ts)

/-! ## Per-IP rate limiter  (src/index.ts lines 549–562, 574–590)

Two independent maps, `rateLimits` (general API, 30/min) and
`ticketRateLimits` (`/api/auth/ticket`, 10/min), both driven by
`checkRateLimit`. -/

structure RLEntry where
  count : Nat
  resetAt : Nat
  deriving Repr, DecidableEq

abbrev RLMap := List (String × RLEntry)

/-- `checkRateLimit(ip, map, maxRequests)`: fresh or elapsed window starts
`{count: 1, resetAt: now + 60000}` and allows; otherwise the stored entry
is incremented in place and the request is allowed iff the new count is
still `≤ maxRequests`. -/
def checkRateLimit (now : Nat) (ip : String) (m : RLMap)
    (maxRequests : Nat) : Bool × RLMap :=
  match mget m ip with
  | none => (true, mset m ip ⟨1, now + 60000⟩)
  | some e =>
    if e.resetAt < now then
      (true, mset m ip ⟨1, now + 60000⟩)
    else
      (decide (e.count + 1 ≤ maxRequests), mset m ip ⟨e.count + 1, e.resetAt⟩)

/-- Fold a sequence of request times through `checkRateLimit` for one key,
collecting each request's allow/deny verdict in order. -/
def rlRun (ip : String) (maxRequests : Nat) : List Nat → RLMap →
    List Bool × RLMap
  | [], m => ([], m)
  | t :: ts, m =>
    let (ok, m') := checkRateLimit t ip m maxRequests
    let (oks, m'') := rlRun ip maxRequests ts m'
    (ok :: oks, m'')

/-- The HTTP handler's rate-limit gate (lines 574–590): requests to
exactly `/api/auth/ticket` are counted against `ticketRateLimits` with
threshold 10, every other `/api/` request against `rateLimits` with
threshold 30; a denied request is answered 429 and the other map is
untouched. Returns (allowed, rateLimits', ticketRateLimits'). -/
def rateGate (now : Nat) (ip : String) (url : String) (rl trl : RLMap) :
    Bool × RLMap × RLMap :=
  if url = "/api/auth/ticket" then
    let (ok, trl') := checkRateLimit now ip trl 10
    (ok, rl, trl')
  else
    let (ok, rl') := checkRateLimit now ip rl 30
    (ok, rl', trl)

/-! ## Secret redaction  (src/redact.ts)

`redactSecrets` is a pipeline of twelve JavaScript `String.replace`
calls with global regexes.  Every pattern is a plain sequence of three
kinds of pieces — a literal, an alternation of literals, or a repeated
character class (greedy or lazy, with lower and optional upper bound) —
so we embed exactly that fragment, with JavaScript's leftmost-match,
ordered-alternation, greedy/lazy backtracking semantics, and scan
resumption after each replacement (a `g`-flag replace never rescans the
replacement text within the same call). -/

/-- JS `\s`: the whitespace code points of the ECMAScript spec. -/
def isJsSpace (c : Char) : Bool :=
  c = '\t' || c = '\n' || c.toNat = 0x0b || c.toNat = 0x0c || c = '\r' ||
  c = ' ' || c.toNat = 0xa0 || c.toNat = 0x1680 ||
  (0x2000 ≤ c.toNat && c.toNat ≤ 0x200a) ||
  c.toNat = 0x2028 || c.toNat = 0x2029 || c.toNat = 0x202f ||
  c.toNat = 0x205f || c.toNat = 0x3000 || c.toNat = 0xfeff

def isAsciiLetter (c : Char) : Bool :=
  ('a' ≤ c && c ≤ 'z') || ('A' ≤ c && c ≤ 'Z')

def isAsciiDigit (c : Char) : Bool :=
  '0' ≤ c && c ≤ '9'

def isAlnum (c : Char) : Bool :=
  isAsciiLetter c || isAsciiDigit c

/-- One piece of a pattern: literal (with case-insensitive flag),
ordered alternation of literals, or a repeated character class with
bounds `lo`/`hi` (`hi = none` meaning unbounded) and laziness flag. -/
inductive RAtom where
  | lit (s : List Char) (ci : Bool)
  | alts (ss : List (List Char)) (ci : Bool)
  | cls (p : Char → Bool) (lo : Nat) (hi : Option Nat) (lazy : Bool)

def charsMatch (ci : Bool) (a b : Char) : Bool :=
  if ci then a.toLower = b.toLower else a = b

/-- Match a literal at the head of the input, returning the remainder. -/
def litAt (ci : Bool) : List Char → List Char → Option (List Char)
  | [], cs => some cs
  | _ :: _, [] => none
  | l :: ls, c :: cs => if charsMatch ci l c then litAt ci ls cs else none

/-- Length of the maximal run of class characters at the head. -/
def countRun (p : Char → Bool) : List Char → Nat
  | [] => 0
  | c :: cs => if p c then countRun p cs + 1 else 0

/-- Backtracking matcher: try to match the atom sequence at the head of
the input; on success return the remaining input after the match chosen
by JS semantics (first alternative that lets the rest succeed; greedy
classes try longest first, lazy classes shortest first). -/
def matchAtoms : List RAtom → List Char → Option (List Char)
  | [], cs => some cs
  | .lit s ci :: rest, cs =>
    match litAt ci s cs with
    | some cs' => matchAtoms rest cs'
    | none => none
  | .alts ss ci :: rest, cs =>
    ss.findSome? (fun s =>
      match litAt ci s cs with
      | some cs' => matchAtoms rest cs'
      | none => none)
  | .cls p lo hi lz :: rest, cs =>
    let run := countRun p cs
    let cap := match hi with
      | some h => min h run
      | none => run
    let counts := if lz then List.range' lo (cap + 1 - lo)
      else (List.range' lo (cap + 1 - lo)).reverse
    counts.findSome? (fun k => matchAtoms rest (cs.drop k))

/-- Global replace: scan left to right; at each position try the
pattern; on a match emit the replacement and resume after the matched
text.  Every pattern below consumes at least one character on success,
so fuel `length + 1` (stepped on every emitted character) is never
exhausted. -/
def scanReplace (pat : List RAtom) (repl : List Char) :
    Nat → List Char → List Char
  | 0, cs => cs
  | _ + 1, [] => []
  | fuel + 1, c :: cs =>
    match matchAtoms pat (c :: cs) with
    | some rest => repl ++ scanReplace pat repl fuel rest
    | none => c :: scanReplace pat repl fuel cs

def replaceAllRe (pat : List RAtom) (repl : String) (cs : List Char) :
    List Char :=
  scanReplace pat repl.data (cs.length + 1) cs

/-- `[\s:="']` — the separator class of the generic pattern. -/
def isSepChar (c : Char) : Bool :=
  isJsSpace c || c = ':' || c = '=' || c = '"' || c = '\''

/-- `(?:token|secret|key|password|credential|authorization|api_key|
private_key|access_key|connection_string|db_pass|signing)[\s:="']+\S{8,}`
with flags `gi`. -/
def genericSecretPat : List RAtom :=
  [.alts (["token", "secret", "key", "password", "credential",
           "authorization", "api_key", "private_key", "access_key",
           "connection_string", "db_pass", "signing"].map String.data) true,
   .cls isSepChar 1 none false,
   .cls (fun c => !isJsSpace c) 8 none false]

/-- `sk-[a-zA-Z0-9]{20,}` -/
def openAiPat : List RAtom :=
  [.lit "sk-".data false, .cls isAlnum 20 none false]

/-- `gh[ps]_[a-zA-Z0-9]{36,}` -/
def githubPat : List RAtom :=
  [.lit "gh".data false, .cls (fun c => c = 'p' || c = 's') 1 (some 1) false,
   .lit "_".data false, .cls isAlnum 36 none false]

/-- `AKIA[A-Z0-9]{16}` -/
def awsPat : List RAtom :=
  [.lit "AKIA".data false,
   .cls (fun c => ('A' ≤ c && c ≤ 'Z') || isAsciiDigit c) 16 (some 16) false]

/-- `DefaultEndpointsProtocol=[^;\s]{20,}` with `gi`. -/
def azureProtoPat : List RAtom :=
  [.lit "DefaultEndpointsProtocol=".data true,
   .cls (fun c => !(c = ';' || isJsSpace c)) 20 none false]

/-- `AccountKey=[^;\s]{20,}` with `gi`. -/
def azureKeyPat : List RAtom :=
  [.lit "AccountKey=".data true,
   .cls (fun c => !(c = ';' || isJsSpace c)) 20 none false]

/-- `(postgres|mongodb|mysql|redis):\/\/[^\s"']{10,}` with `gi`. -/
def dbUrlPat : List RAtom :=
  [.alts (["postgres", "mongodb", "mysql", "redis"].map String.data) true,
   .lit "://".data false,
   .cls (fun c => !(isJsSpace c || c = '"' || c = '\'')) 10 none false]

/-- `Bearer\s+[a-zA-Z0-9._-]{20,}` with `gi`. -/
def bearerPat : List RAtom :=
  [.lit "Bearer".data true, .cls isJsSpace 1 none false,
   .cls (fun c => isAlnum c || c = '.' || c = '_' || c = '-') 20 none false]

/-- JWT body/signature class `[a-zA-Z0-9_-]`. -/
def isJwtChar (c : Char) : Bool :=
  isAlnum c || c = '_' || c = '-'

/-- `eyJ[a-zA-Z0-9_-]{10,}\.[a-zA-Z0-9_-]{10,}\.[a-zA-Z0-9_-]{10,}` -/
def jwtPat : List RAtom :=
  [.lit "eyJ".data false, .cls isJwtChar 10 none false,
   .lit ".".data false, .cls isJwtChar 10 none false,
   .lit ".".data false, .cls isJwtChar 10 none false]

/-- `xox[bpras]-[a-zA-Z0-9-]{10,}` -/
def slackPat : List RAtom :=
  [.lit "xox".data false,
   .cls (fun c => c = 'b' || c = 'p' || c = 'r' || c = 'a' || c = 's')
     1 (some 1) false,
   .lit "-".data false,
   .cls (fun c => isAlnum c || c = '-') 10 none false]

/-- `npm_[a-zA-Z0-9]{20,}` -/
def npmPat : List RAtom :=
  [.lit "npm_".data false, .cls isAlnum 20 none false]

/-- `-----BEGIN [A-Z ]+ PRIVATE KEY-----[\s\S]*?-----END [A-Z ]+ PRIVATE
KEY-----` -/
def pemPat : List RAtom :=
  [.lit "-----BEGIN ".data false,
   .cls (fun c => ('A' ≤ c && c ≤ 'Z') || c = ' ') 1 none false,
   .lit " PRIVATE KEY-----".data false,
   .cls (fun _ => true) 0 none true,
   .lit "-----END ".data false,
   .cls (fun c => ('A' ≤ c && c ≤ 'Z') || c = ' ') 1 none false,
   .lit " PRIVATE KEY-----".data false]

/-- The twelve `.replace` calls of `redactSecrets`, in source order. -/
def redactList (cs : List Char) : List Char :=
  cs
  |> replaceAllRe genericSecretPat "[REDACTED]"
  |> replaceAllRe openAiPat "[REDACTED]"
  |> replaceAllRe githubPat "[REDACTED]"
  |> replaceAllRe awsPat "[REDACTED]"
  |> replaceAllRe azureProtoPat "[REDACTED]"
  |> replaceAllRe azureKeyPat "AccountKey=[REDACTED]"
  |> replaceAllRe dbUrlPat "[REDACTED]"
  |> replaceAllRe bearerPat "Bearer [REDACTED]"
  |> replaceAllRe jwtPat "[REDACTED]"
  |> replaceAllRe slackPat "[REDACTED]"
  |> replaceAllRe npmPat "[REDACTED]"
  |> replaceAllRe pemPat "[REDACTED]"

/-- `redactSecrets` from src/redact.ts. -/
def redactSecrets (s : String) : String :=
  String.mk (redactList s.data)

/-! ## Connection manager and terminal bridge
(src/index.ts lines 536–547, 786–864)

State: the `connections` map (id → socket, each socket carrying its
`_remoteAddress`, `_isAlive` flag and, in the model, the ordered list of
messages sent to it) plus the `acpEventLog` replay buffer.  Events are
the server's I/O callbacks, each of which runs atomically on Node's
event loop: a WebSocket upgrade (`wss.on('connection')` after
`verifyClient`), a socket close, a pong, a heartbeat interval tick, a
session-TTL sweep tick, and a PTY output broadcast. -/

/-- A message written to one socket, i.e. the JSON envelopes
`{type:'_replay', data}`, `{type:'_replay_done'}` and `{type:'pty', data}`
in structured form (`JSON.stringify` is injective on these shapes). -/
inductive WireMsg where
  | replayMsg (data : String)
  | replayDone
  | live (data : String)
  deriving Repr, DecidableEq

structure Conn where
  id : String
  addr : String
  isAlive : Bool
  log : List WireMsg
  deriving Repr, DecidableEq

structure SrvState where
  conns : List Conn
  buffer : List String
  deriving Repr, DecidableEq

/-- `connections.set(id, ws)` — replace the entry with this id, or
append (JS `Map.set` keeps insertion order for existing keys). -/
def setConn : List Conn → Conn → List Conn
  | [], c => [c]
  | d :: rest, c => if d.id = c.id then c :: rest else d :: setConn rest c

/-- The `perIpCount` loop: connections whose `_remoteAddress` equals
`addr`. -/
def countAddr (l : List Conn) (a : String) : Nat :=
  (l.filter (fun c => c.addr = a)).length

/-- The replay messages sent to a freshly admitted socket (lines
809–815): each buffered event redacted, in buffer order, then the
`_replay_done` sentinel; nothing when `--replay` is off. -/
def initLog (hasReplay : Bool) (buffer : List String) : List WireMsg :=
  if hasReplay then
    buffer.map (fun e => WireMsg.replayMsg (redactSecrets e)) ++
      [WireMsg.replayDone]
  else []

inductive AdmitOutcome where
  | accepted
  | closedGlobalCap
  | closedPerIpCap
  deriving Repr, DecidableEq

/-- The `wss.on('connection')` handler (lines 786–815): global cap 5,
then per-address cap 2 (both close 1013 without touching the map), then
register the socket with `_isAlive = true` and send it the replay. -/
def connectStep (hasReplay : Bool) (s : SrvState) (id addr : String) :
    SrvState × AdmitOutcome :=
  if 5 ≤ s.conns.length then (s, .closedGlobalCap)
  else if 2 ≤ countAddr s.conns addr then (s, .closedPerIpCap)
  else
    ({ s with conns := setConn s.conns ⟨id, addr, true, initLog hasReplay s.buffer⟩ },
     .accepted)

/-- `acpEventLog.push(msg)` followed by the `splice` that keeps the last
2000 entries. -/
def trimBuf (b : List String) : List String :=
  if 2000 < b.length then b.drop (b.length - 2000) else b

/-- `broadcast(data)` (lines 855–864): buffer the message (replay mode
only), then send it to every open socket. -/
def broadcastStep (hasReplay : Bool) (s : SrvState) (data : String) :
    SrvState :=
  { conns := s.conns.map (fun c => { c with log := c.log ++ [WireMsg.live data] }),
    buffer := if hasReplay then trimBuf (s.buffer ++ [data]) else s.buffer }

/-- One heartbeat interval tick (lines 842–853): a socket whose
`_isAlive` is false is terminated and deleted and is not pinged; every
other socket has `_isAlive` reset to false and is pinged.  Returns
(surviving connections, terminated connections, pinged ids). -/
def heartbeatTick : List Conn → List Conn × List Conn × List String
  | [] => ([], [], [])
  | c :: rest =>
    let (live, dead, pinged) := heartbeatTick rest
    if c.isAlive then ({ c with isAlive := false } :: live, dead, c.id :: pinged)
    else (live, c :: dead, pinged)

/-- `ws.on('pong', ...)`: mark that socket alive. -/
def pongStep (l : List Conn) (i : String) : List Conn :=
  l.map (fun c => if c.id = i then { c with isAlive := true } else c)

inductive Ev where
  | connect (id addr : String)
  | close (id : String)
  | pong (id : String)
  | heartbeat
  | ttlSweep (expired : Bool)
  | bcast (data : String)
  deriving Repr, DecidableEq

def step (hasReplay : Bool) (s : SrvState) : Ev → SrvState
  | .connect id addr => (connectStep hasReplay s id addr).1
  | .close i => { s with conns := s.conns.filter (fun c => ¬ c.id = i) }
  | .pong i => { s with conns := pongStep s.conns i }
  | .heartbeat => { s with conns := (heartbeatTick s.conns).1 }
  | .ttlSweep expired => if expired then { s with conns := [] } else s
  | .bcast d => broadcastStep hasReplay s d

def stepMany (hasReplay : Bool) (evs : List Ev) (s : SrvState) : SrvState :=
  evs.foldl (step hasReplay) s

/-- States reachable from server start (empty map, empty buffer). -/
def reach (hasReplay : Bool) (evs : List Ev) : SrvState :=
  stepMany hasReplay evs ⟨[], []⟩

/-! ## WebSocket admission  (src/index.ts lines 749–777, 786–803)

`verifyClient` runs during the HTTP upgrade handshake, before the
`connection` event: session TTL, then Origin, then ticket redemption.
The connection caps run afterwards, inside `wss.on('connection')`.
The `Origin` header is modelled post-`new URL`: absent, unparseable, or
parsed with a hostname. -/

def SESSION_TTL : Nat := 4 * 60 * 60 * 1000

inductive OriginHeader where
  | malformed
  | host (h : String)
  deriving Repr, DecidableEq

/-- Lines 756–766: an absent Origin passes; an unparseable one fails;
a parsed one passes iff the hostname is `localhost`, `127.0.0.1` or ends
in `.devtunnels.ms`. -/
def originOk : Option OriginHeader → Bool
  | none => true
  | some .malformed => false
  | some (.host h) =>
    h = "localhost" || h = "127.0.0.1" || h.endsWith ".devtunnels.ms"

/-- Lines 768–775: `const ticket = url.searchParams.get('ticket')` is
falsy when absent or empty; redemption deletes the entry on sight and
succeeds iff it had not yet expired. -/
def wsTicketCheck (now : Nat) (ticketParam : Option String)
    (ts : TicketMap) : Bool × TicketMap :=
  match ticketParam with
  | some tid =>
    if tid = "" then (false, ts)
    else ticketRedeem now ts tid
  | none => (false, ts)

/-- `verifyClient` (lines 752–776). `now - createdAt` is the JS
`Date.now() - sessionCreatedAt` (non-negative in every real execution,
so `Nat` subtraction agrees). -/
def verifyClient (now createdAt : Nat) (origin : Option OriginHeader)
    (ticketParam : Option String) (ts : TicketMap) : Bool × TicketMap :=
  if SESSION_TTL < now - createdAt then (false, ts)
  else if !originOk origin then (false, ts)
  else wsTicketCheck now ticketParam ts

inductive UpgradeOutcome where
  | handshakeRejected
  | closedGlobalCap
  | closedPerIpCap
  | accepted
  deriving Repr, DecidableEq

/-- A full upgrade attempt: the handshake (`verifyClient`) followed, on
success, by the `connection` handler's cap checks and registration. -/
def upgradeAttempt (hasReplay : Bool) (now createdAt : Nat)
    (origin : Option OriginHeader) (ticketParam : Option String)
    (ts : TicketMap) (s : SrvState) (newId addr : String) :
    UpgradeOutcome × TicketMap × SrvState :=
  let vc := verifyClient now createdAt origin ticketParam ts
  if vc.1 then
    match connectStep hasReplay s newId addr with
    | (s', .accepted) => (.accepted, vc.2, s')
    | (s', .closedGlobalCap) => (.closedGlobalCap, vc.2, s')
    | (s', .closedPerIpCap) => (.closedPerIpCap, vc.2, s')
  else (.handshakeRejected, vc.2, s)

/-! ## PTY environment filtering  (src/index.ts lines 1085–1106) -/

def DANGEROUS_VARS : List String :=
  ["NODE_OPTIONS", "NODE_REPL_HISTORY", "NODE_EXTRA_CA_CERTS",
   "NODE_PATH", "NODE_REDIRECT_WARNINGS", "NODE_PENDING_DEPRECATION",
   "UV_THREADPOOL_SIZE", "LD_PRELOAD", "DYLD_INSERT_LIBRARIES",
   "SSH_AUTH_SOCK", "GPG_TTY",
   "PYTHONPATH", "BASH_ENV", "BASH_FUNC", "JAVA_TOOL_OPTIONS",
   "JAVA_OPTIONS", "_JAVA_OPTIONS",
   "PROMPT_COMMAND", "ENV", "ZDOTDIR", "PERL5OPT", "RUBYOPT"]

/-- Does `needle` occur as a contiguous substring? -/
def listHasSub (needle : List Char) : List Char → Bool
  | [] => needle.isEmpty
  | c :: cs => needle.isPrefixOf (c :: cs) || listHasSub needle cs

def sensitiveWords : List String :=
  ["token", "secret", "key", "password", "credential", "api_key",
   "private_key", "access_key", "connection_string", "auth",
   "kubeconfig", "docker_host", "docker_config"]

/-- `sensitivePattern.test(k)`: the regex is an unanchored,
case-insensitive alternation of the literal words above, so it holds iff
some word occurs in the lowercased name. -/
def sensitivePattern (k : String) : Bool :=
  sensitiveWords.any (fun w => listHasSub w.data (k.data.map Char.toLower))

/-- `safeEnv` (lines 1095–1100): keep `(k, v)` iff `v` is defined, `k`
is not in `DANGEROUS_VARS` and `k` does not match `sensitivePattern`.
This is exactly the `env:` passed to `nodePty.spawn` (line 1105). -/
def safeEnv (env : List (String × Option String)) : List (String × String) :=
  env.filterMap (fun kv =>
    match kv.2 with
    | some v =>
      if !(DANGEROUS_VARS.contains kv.1) && !(sensitivePattern kv.1) then
        some (kv.1, v)
      else none
    | none => none)

/-! ## Session registry and the hub's ticket proxy
(src/index.ts lines 509–516, 621–646) -/

structure SessionRec where
  token : String
  name : String
  tunnelId : String
  tunnelUrl : String
  port : Nat
  hub : Bool
  deriving Repr, DecidableEq

/-- `readLocalSessions`: parse each session file (a parse failure yields
`none`) and keep the non-hub records. -/
def readLocalSessions (files : List (Option SessionRec)) :
    List SessionRec :=
  (files.filterMap id).filter (fun s => !s.hub)

/-- Outcome of the hub's server-to-server
`fetch('http://127.0.0.1:<port>/api/auth/ticket')`: a 2xx with a ticket,
a reachable non-2xx (the handler `throw`s on `!ticketResp.ok`), or a
network error / 3 s timeout.  The latter two both land in the `catch`. -/
inductive FetchOutcome where
  | success (ticket : String)
  | badStatus
  | unreachable
  deriving Repr, DecidableEq

/-- The `/api/proxy/ticket/:port` response, with its JSON body in
structured form. -/
inductive ProxyResp where
  | invalidPort
  | notFoundSession
  | unreachableSession
  | ticketOk (ticket : String) (port : Nat)
  deriving Repr, DecidableEq

def proxyStatus : ProxyResp → Nat
  | .invalidPort => 400
  | .notFoundSession => 404
  | .unreachableSession => 502
  | .ticketOk _ _ => 200

/-- The JSON *string* values of the response body (`port` is a JSON
number, so it is not a string value). -/
def proxyBodyStrings : ProxyResp → List String
  | .invalidPort => ["Invalid port"]
  | .notFoundSession => ["Session not found"]
  | .unreachableSession => ["Session unreachable"]
  | .ticketOk t _ => [t]

/-- `u.startsWith(pre)`, expressed over the character lists. -/
def strHasPre (pre u : String) : Bool :=
  pre.data.isPrefixOf u.data

/-- `req.url.match(/^\/api\/proxy\/ticket\/(\d+)$/)`: the whole url is
the literal prefix followed by one or more digits. -/
def ticketPathDigits (url : String) : Option String :=
  let pre := "/api/proxy/ticket/"
  if strHasPre pre url then
    let rest := String.mk (url.data.drop pre.data.length)
    if rest ≠ "" ∧ rest.data.all isAsciiDigit then some rest else none
  else none

/-- `parseInt` on a digit string. -/
def digitsToNat (s : String) : Nat :=
  s.data.foldl (fun n c => n * 10 + (c.toNat - '0'.toNat)) 0

/-- The hub's ticket-proxy handler (lines 622–646).  `Number.isFinite`
is always true for a digits-only `parseInt`, so only the 1–65535 range
check remains.  `fetchRes port token` is the sibling call's outcome. -/
def proxyTicketHandler (url : String) (files : List (Option SessionRec))
    (fetchRes : Nat → String → FetchOutcome) : ProxyResp :=
  match ticketPathDigits url with
  | none => .invalidPort
  | some ds =>
    let targetPort := digitsToNat ds
    if targetPort < 1 ∨ 65535 < targetPort then .invalidPort
    else
      match (readLocalSessions files).find? (fun s => s.port = targetPort) with
      | none => .notFoundSession
      | some sess =>
        match fetchRes targetPort sess.token with
        | .success t => .ticketOk t targetPort
        | .badStatus => .unreachableSession
        | .unreachable => .unreachableSession

/-! ## HTTP dispatcher  (src/index.ts lines 571–747)

Route order as in the source: rate limit, session TTL, the ticket
endpoint (which matches `req.url === '/api/auth/ticket'` *exactly*, so a
url carrying a query string does not match it), the F-01 token check
(header or `token` query parameter), the hub proxy, the sessions list,
the session delete, then static file serving.  `req.url` is the raw
request target including any query string. -/

/-- `req.url` path part (before `?`). -/
def urlPathOf (u : String) : String :=
  String.mk (u.data.takeWhile (fun c => c ≠ '?'))

/-- `req.url` query part (after the first `?`). -/
def queryOf (u : String) : String :=
  String.mk ((u.data.dropWhile (fun c => c ≠ '?')).drop 1)

def paramKey (p : String) : String :=
  String.mk (p.data.takeWhile (fun c => c ≠ '='))

def paramVal (p : String) : String :=
  String.mk ((p.data.dropWhile (fun c => c ≠ '=')).drop 1)

/-- Split at every `&`. -/
def splitAmp : List Char → List (List Char)
  | [] => [[]]
  | c :: cs =>
    if c = '&' then [] :: splitAmp cs
    else
      match splitAmp cs with
      | g :: gs => (c :: g) :: gs
      | [] => [[c]]

/-- `new URL(req.url, base).searchParams.get(name)`: first `&`-separated
pair whose key matches; absent value means the empty string.  (Percent
and `+` decoding are identities on the UUID-shaped values used here.) -/
def getParam (u name : String) : Option String :=
  let q := queryOf u
  let pairs := if q = "" then [] else (splitAmp q.data).map String.mk
  (pairs.find? (fun p => paramKey p = name)).map paramVal

/-- Remove the first occurrence of `pat` (JS
`String.prototype.replace` with a string pattern and empty replacement). -/
def removeFirstSub (pat : List Char) : List Char → List Char
  | [] => []
  | c :: cs =>
    if pat.isPrefixOf (c :: cs) then (c :: cs).drop pat.length
    else c :: removeFirstSub pat cs

/-- `h.replace('Bearer ', '')`. -/
def stripBearerStr (h : String) : String :=
  String.mk (removeFirstSub "Bearer ".data h.data)

/-- F-01's token extraction:
`req.headers.authorization?.replace('Bearer ', '') ||
reqUrl.searchParams.get('token')` — the query parameter is used when the
header is absent (or stripped to the falsy empty string). -/
def authTokenOf (url : String) (authHeader : Option String) :
    Option String :=
  match authHeader with
  | some h =>
    let s := stripBearerStr h
    if s = "" then getParam url "token" else some s
  | none => getParam url "token"

structure HReq where
  url : String
  method : String
  authHeader : Option String
  ip : String
  deriving Repr, DecidableEq

inductive HResp where
  | tooManyRequests
  | sessionExpired
  | unauthorizedBare
  | unauthorized
  | ticketIssued (ticket : String) (expires : Nat)
  | proxied (r : ProxyResp)
  | sessionsList
  | sessionDelete (tunnelId : String)
  | badTunnelId
  | staticServe (path : String)
  deriving Repr, DecidableEq

/-- HTTP status per response; `staticServe` depends on the filesystem
(200 on an existing UI asset, 400/403/404/500 otherwise), so its status
is `none` here — in particular it is never produced by an `/api` auth
rejection. -/
def respStatus : HResp → Option Nat
  | .tooManyRequests => some 429
  | .sessionExpired => some 401
  | .unauthorizedBare => some 401
  | .unauthorized => some 401
  | .ticketIssued _ _ => some 200
  | .proxied r => some (proxyStatus r)
  | .sessionsList => some 200
  | .sessionDelete _ => some 200
  | .badTunnelId => some 400
  | .staticServe _ => none

def isWordChar (c : Char) : Bool :=
  isAlnum c || c = '_'

/-- `.replace(/\.\w+$/, '')`: drop a final dot-plus-word-chars suffix. -/
def stripDotSuf (s : String) : String :=
  let r := s.data.reverse
  let w := r.takeWhile isWordChar
  if w ≠ [] ∧ (r.drop w.length).head? = some '.' then
    String.mk ((r.drop (w.length + 1)).reverse)
  else s

/-- `/^[a-zA-Z0-9._-]+$/.test(tunnelId)` -/
def validTunnelId (s : String) : Bool :=
  s ≠ "" && s.data.all (fun c => isAlnum c || c = '.' || c = '_' || c = '-')

structure SrvCtx where
  sessionToken : String
  hubMode : Bool
  createdAt : Nat
  deriving Repr, DecidableEq

/-- The request handler of `http.createServer` (lines 571–747), with the
external effects abstracted: `freshTicket` is the `crypto.randomUUID()`
the ticket endpoint would mint, `files`/`fetchRes` feed the hub proxy,
and static serving is represented by the path handed to it.  Returns the
response and the updated rate-limit and ticket maps. -/
def apiDispatch (ctx : SrvCtx) (now : Nat) (req : HReq) (rl trl : RLMap)
    (ts : TicketMap) (freshTicket : String)
    (files : List (Option SessionRec))
    (fetchRes : Nat → String → FetchOutcome) :
    HResp × RLMap × RLMap × TicketMap :=
  let isApi := strHasPre "/api/" req.url
  let gate := rateGate now req.ip req.url rl trl
  let rl' := if isApi then gate.2.1 else rl
  let trl' := if isApi then gate.2.2 else trl
  if isApi && !gate.1 then
    (.tooManyRequests, rl', trl', ts)
  else if !ctx.hubMode && isApi && decide (SESSION_TTL < now - ctx.createdAt) then
    (.sessionExpired, rl', trl', ts)
  else if req.url = "/api/auth/ticket" ∧ req.method = "POST" then
    if (req.authHeader.map stripBearerStr) = some ctx.sessionToken then
      (.ticketIssued freshTicket (now + 60000), rl', trl',
        ticketIssue now ts freshTicket)
    else (.unauthorizedBare, rl', trl', ts)
  else if isApi && !(authTokenOf req.url req.authHeader == some ctx.sessionToken) then
    (.unauthorized, rl', trl', ts)
  else if ctx.hubMode && strHasPre "/api/proxy/ticket/" req.url &&
      req.method == "POST" then
    (.proxied (proxyTicketHandler req.url files fetchRes), rl', trl', ts)
  else if (req.url = "/api/sessions" ∨ strHasPre "/api/sessions?" req.url = true) ∧
      req.method = "GET" then
    (.sessionsList, rl', trl', ts)
  else if strHasPre "/api/sessions/" req.url = true ∧ req.method = "DELETE" then
    let tid := stripDotSuf (String.mk
      (removeFirstSub "/api/sessions/".data req.url.data))
    if validTunnelId tid then (.sessionDelete tid, rl', trl', ts)
    else (.badTunnelId, rl', trl', ts)
  else
    (.staticServe (urlPathOf req.url), rl', trl', ts)

/-! ## Invariants and example states used by the theorems -/

/-- C2's invariant: at most 5 open connections globally and at most 2
per remote address. -/
def capInv (s : SrvState) : Prop :=
  s.conns.length ≤ 5 ∧ ∀ a, countAddr s.conns a ≤ 2

/-- C5's per-socket message-stream shape: a redacted replay of some
history, then the `_replay_done` sentinel, then only live broadcasts. -/
def replayShape (m : List WireMsg) : Prop :=
  ∃ (hist : List String) (rest : List WireMsg),
    m = hist.map (fun e => WireMsg.replayMsg (redactSecrets e)) ++
      WireMsg.replayDone :: rest ∧
    ∀ x ∈ rest, ∃ d, x = WireMsg.live d

/-- Every tracked socket with this id has missed its ping
(`_isAlive === false`). -/
def idDead (i : String) (l : List Conn) : Prop :=
  ∀ c ∈ l, c.id = i → c.isAlive = false

def exConn (i a : String) : Conn := ⟨i, a, true, []⟩

/-- Five open connections from five addresses. -/
def s5ex : SrvState :=
  ⟨[exConn "c1" "a1", exConn "c2" "a2", exConn "c3" "a3",
    exConn "c4" "a4", exConn "c5" "a5"], []⟩

/-- Two open connections from one address. -/
def s2ex : SrvState := ⟨[exConn "c1" "a1", exConn "c2" "a1"], []⟩

/-! ## Supporting lemmas -/

theorem mget_mset_self {α : Type} (m : List (String × α)) (k : String)
    (v : α) : mget (mset m k v) k = some v := by
  induction m with
  | nil => simp [mget, mset]
  | cons p rest ih =>
    by_cases h : p.1 = k
    · simp [mset, h, mget]
    · simp only [mset, if_neg h]
      simpa [mget, List.find?, h] using ih

theorem mget_mdel_self {α : Type} (m : List (String × α)) (k : String) :
    mget (mdel m k) k = none := by
  simp only [mget, Option.map_eq_none', List.find?_eq_none, mdel]
  intro p hp
  rcases List.mem_filter.mp hp with ⟨-, hk⟩
  simpa using hk

theorem mdel_eq_of_mget_none {α : Type} (m : List (String × α))
    (k : String) (h : mget m k = none) : mdel m k = m := by
  simp only [mget, Option.map_eq_none', List.find?_eq_none] at h
  refine List.filter_eq_self.mpr ?_
  intro p hp
  have := h p hp
  simpa using this

theorem ticketRedeem_state (now : Nat) (ts : TicketMap) (tid : String) :
    (ticketRedeem now ts tid).2 = mdel ts tid := by
  unfold ticketRedeem
  cases h : mget ts tid with
  | some exp => rfl
  | none => exact (mdel_eq_of_mget_none ts tid h).symm

/-- **C1** — One-time tickets: redemption deletes the stored entry
regardless of outcome, so a second redemption of the same id always
fails; redemption succeeds exactly when the ticket exists and its expiry
is still in the future; and a ticket issued by `POST /api/auth/ticket`
at `t0` redeems successfully precisely within its 60-second lifetime. -/
theorem C1_ticket_single_use (now now2 t0 redeemT : Nat) (ts : TicketMap)
    (tid newId : String) :
    (ticketRedeem now ts tid).2 = mdel ts tid ∧
    mget (ticketRedeem now ts tid).2 tid = none ∧
    (ticketRedeem now2 (ticketRedeem now ts tid).2 tid).1 = false ∧
    ((ticketRedeem now ts tid).1 = true ↔
      ∃ exp, mget ts tid = some exp ∧ now < exp) ∧
    (ticketRedeem redeemT (ticketIssue t0 ts newId) newId).1 =
      decide (redeemT < t0 + 60000) := by
  refine ⟨ticketRedeem_state now ts tid, ?_, ?_, ?_, ?_⟩
  · rw [ticketRedeem_state]
    exact mget_mdel_self ts tid
  · rw [ticketRedeem_state]
    unfold ticketRedeem
    rw [mget_mdel_self]
  · unfold ticketRedeem
    cases h : mget ts tid with
    | some exp => simp
    | none => simp
  · unfold ticketIssue ticketRedeem
    rw [mget_mset_self]

/-! Rate-limiter lemmas. -/

theorem rlRun_in_window (ip : String) (maxRequests r : Nat)
    (ts : List Nat) (hts : ∀ t ∈ ts, t ≤ r) (k : Nat) (m : RLMap)
    (hm : mget m ip = some ⟨k, r⟩) :
    (rlRun ip maxRequests ts m).1 =
      (List.range ts.length).map
        (fun i => decide (k + 1 + i ≤ maxRequests)) := by
  induction ts generalizing k m with
  | nil => simp [rlRun]
  | cons t ts ih =>
    have ht : t ≤ r := hts t (by simp)
    have hts' : ∀ t' ∈ ts, t' ≤ r := fun t' h => hts t' (by simp [h])
    have hnotlt : ¬ r < t := Nat.not_lt.mpr ht
    have hstep : checkRateLimit t ip m maxRequests =
        (decide (k + 1 ≤ maxRequests), mset m ip ⟨k + 1, r⟩) := by
      simp [checkRateLimit, hm, hnotlt]
    have ihh := ih hts' (k + 1) (mset m ip ⟨k + 1, r⟩)
      (mget_mset_self m ip ⟨k + 1, r⟩)
    simp only [rlRun, hstep, ihh, List.length_cons, List.range_succ_eq_map,
      List.map_cons, List.map_map]
    refine congrArg₂ List.cons (by simp) ?_
    refine List.map_congr_left ?_
    intro i _
    simp only [Function.comp]
    refine decide_eq_decide.mpr ?_
    omega

theorem rlRun_fresh_window (ip : String) (maxRequests t0 : Nat)
    (hmax : 1 ≤ maxRequests) (ts : List Nat)
    (hts : ∀ t ∈ ts, t ≤ t0 + 60000) (m : RLMap)
    (hm : mget m ip = none) :
    (rlRun ip maxRequests (t0 :: ts) m).1 =
      (List.range (ts.length + 1)).map
        (fun i => decide (i + 1 ≤ maxRequests)) := by
  have hstep : checkRateLimit t0 ip m maxRequests =
      (true, mset m ip ⟨1, t0 + 60000⟩) := by
    simp [checkRateLimit, hm]
  have htail := rlRun_in_window ip maxRequests (t0 + 60000) ts hts 1
    (mset m ip ⟨1, t0 + 60000⟩) (mget_mset_self m ip ⟨1, t0 + 60000⟩)
  simp only [rlRun, hstep, htail, List.range_succ_eq_map, List.map_cons,
    List.map_map]
  refine congrArg₂ List.cons (by simp [hmax]) ?_
  refine List.map_congr_left ?_
  intro i _
  simp only [Function.comp]
  refine decide_eq_decide.mpr ?_
  omega

/-- **C4** — Per-key fixed-window rate limiting: the first request in a
window stores count 1 with a deadline 60 s ahead and is allowed;
in-window requests increment the counter and are allowed exactly while
the count stays within the class threshold, so starting from a fresh
key, the (i+1)-th request inside the window is allowed iff `i + 1 ≤
maxRequests` (threshold 30 for general API, 10 for ticket minting); a
request after the deadline has elapsed restarts at count 1; the two
limiter classes use disjoint maps (a ticket-minting request never
touches the general map and vice versa); and the dispatcher answers 429
whenever the gate denies. -/
theorem C4_rate_limiter :
    (∀ now ip m maxRequests, mget m ip = none →
      checkRateLimit now ip m maxRequests =
        (true, mset m ip ⟨1, now + 60000⟩)) ∧
    (∀ now ip m maxRequests e, mget m ip = some e → ¬ e.resetAt < now →
      checkRateLimit now ip m maxRequests =
        (decide (e.count + 1 ≤ maxRequests),
         mset m ip ⟨e.count + 1, e.resetAt⟩)) ∧
    (∀ now ip m maxRequests e, mget m ip = some e → e.resetAt < now →
      checkRateLimit now ip m maxRequests =
        (true, mset m ip ⟨1, now + 60000⟩)) ∧
    (∀ ip maxRequests t0 ts, 1 ≤ maxRequests →
      (∀ t ∈ ts, t ≤ t0 + 60000) →
      (rlRun ip maxRequests (t0 :: ts) []).1 =
        (List.range (ts.length + 1)).map
          (fun i => decide (i + 1 ≤ maxRequests))) ∧
    (∀ now ip rl trl,
      rateGate now ip "/api/auth/ticket" rl trl =
        ((checkRateLimit now ip trl 10).1, rl,
         (checkRateLimit now ip trl 10).2)) ∧
    (∀ now ip url rl trl, url ≠ "/api/auth/ticket" →
      rateGate now ip url rl trl =
        ((checkRateLimit now ip rl 30).1,
         (checkRateLimit now ip rl 30).2, trl)) ∧
    (∀ ctx now req rl trl ts ft files fr,
      strHasPre "/api/" req.url = true →
      (rateGate now req.ip req.url rl trl).1 = false →
      (apiDispatch ctx now req rl trl ts ft files fr).1 =
        .tooManyRequests) := by
  refine ⟨?_, ?_, ?_, ?_, ?_, ?_, ?_⟩
  · intro now ip m maxRequests h
    simp [checkRateLimit, h]
  · intro now ip m maxRequests e h hnot
    simp [checkRateLimit, h, hnot]
  · intro now ip m maxRequests e h hlt
    simp [checkRateLimit, h, hlt]
  · intro ip maxRequests t0 ts hmax hts
    exact rlRun_fresh_window ip maxRequests t0 hmax ts hts [] rfl
  · intro now ip rl trl
    simp [rateGate]
  · intro now ip url rl trl h
    simp [rateGate, h]
  · intro ctx now req rl trl ts ft files fr hapi hgate
    simp [apiDispatch, hapi, hgate]

/-- Witness for C4 at concrete inputs: 31 requests from one address
inside one window — the first 30 are allowed and the 31st is denied —
and a ticket-minting request leaves the general map untouched. -/
theorem C4_rate_limiter_witness :
    (rlRun "1.2.3.4" 30 (0 :: List.replicate 30 1000) []).1 =
      (List.range 31).map (fun i => decide (i + 1 ≤ 30)) ∧
    (rlRun "1.2.3.4" 30 (0 :: List.replicate 30 1000) []).1.getLast? =
      some false ∧
    rateGate 0 "1.2.3.4" "/api/auth/ticket" [] [] =
      (true, [], [("1.2.3.4", ⟨1, 60000⟩)]) ∧
    (apiDispatch ⟨"TOK", false, 0⟩ 0
      ⟨"/api/sessions", "GET", none, "1.2.3.4"⟩
      [("1.2.3.4", ⟨31, 60000⟩)] [] [] "f" [] (fun _ _ => .badStatus)).1 =
      .tooManyRequests := by
  refine ⟨?_, ?_, ?_, ?_⟩
  · exact C4_rate_limiter.2.2.2.1 "1.2.3.4" 30 0 (List.replicate 30 1000)
      (by decide) (by intro t ht; simp at ht; omega)
  · have h := C4_rate_limiter.2.2.2.1 "1.2.3.4" 30 0 (List.replicate 30 1000)
      (by decide) (by intro t ht; simp at ht; omega)
    rw [h]
    decide
  · exact (C4_rate_limiter.2.2.2.2.1 0 "1.2.3.4" [] []).trans (by decide)
  · exact C4_rate_limiter.2.2.2.2.2.2 ⟨"TOK", false, 0⟩ 0
      ⟨"/api/sessions", "GET", none, "1.2.3.4"⟩
      [("1.2.3.4", ⟨31, 60000⟩)] [] [] "f" [] (fun _ _ => .badStatus)
      (by decide) (by decide)

/-! Connection-map lemmas. -/

theorem countAddr_cons (c : Conn) (l : List Conn) (a : String) :
    countAddr (c :: l) a = countAddr l a + (if c.addr = a then 1 else 0) := by
  by_cases h : c.addr = a <;> simp [countAddr, List.filter_cons, h]

theorem length_setConn (l : List Conn) (c : Conn) :
    (setConn l c).length ≤ l.length + 1 := by
  induction l with
  | nil => simp [setConn]
  | cons d rest ih =>
    by_cases h : d.id = c.id
    · simp [setConn, h]
    · simp only [setConn, if_neg h, List.length_cons]
      omega

theorem countAddr_setConn (l : List Conn) (c : Conn) (a : String) :
    countAddr (setConn l c) a ≤
      countAddr l a + (if c.addr = a then 1 else 0) := by
  induction l with
  | nil =>
    show countAddr (c :: []) a ≤ _
    rw [countAddr_cons]
  | cons d rest ih =>
    by_cases h : d.id = c.id
    · simp only [setConn, if_pos h]
      rw [countAddr_cons, countAddr_cons]
      split_ifs <;> omega
    · simp only [setConn, if_neg h]
      rw [countAddr_cons, countAddr_cons]
      split_ifs at * <;> omega

theorem countAddr_setConn_le (l : List Conn) (c : Conn) (a : String) :
    countAddr (setConn l c) a ≤ countAddr l a + 1 := by
  have h := countAddr_setConn l c a
  split_ifs at h <;> omega

theorem countAddr_setConn_of_ne (l : List Conn) (c : Conn) (a : String)
    (hne : ¬ c.addr = a) :
    countAddr (setConn l c) a ≤ countAddr l a := by
  have h := countAddr_setConn l c a
  rw [if_neg hne] at h
  omega

theorem countAddr_filter_le (l : List Conn) (p : Conn → Bool) (a : String) :
    countAddr (l.filter p) a ≤ countAddr l a :=
  List.Sublist.length_le (List.Sublist.filter _ (List.filter_sublist l))

theorem countAddr_map_addr_eq (l : List Conn) (f : Conn → Conn)
    (hf : ∀ c, (f c).addr = c.addr) (a : String) :
    countAddr (l.map f) a = countAddr l a := by
  induction l with
  | nil => rfl
  | cons d rest ih =>
    simp only [List.map_cons]
    rw [countAddr_cons, countAddr_cons, ih, hf]

theorem heartbeatTick_eq (l : List Conn) :
    heartbeatTick l =
      ((l.filter fun c => c.isAlive).map (fun c => { c with isAlive := false }),
       l.filter (fun c => !c.isAlive),
       (l.filter fun c => c.isAlive).map (fun c => c.id)) := by
  induction l with
  | nil => rfl
  | cons c rest ih =>
    rcases h : c.isAlive with _ | _ <;>
      simp [heartbeatTick, ih, List.filter_cons, h]

theorem mem_setConn {l : List Conn} {c d : Conn} (h : d ∈ setConn l c) :
    d = c ∨ d ∈ l := by
  induction l with
  | nil => simpa [setConn] using h
  | cons e rest ih =>
    by_cases he : e.id = c.id
    · simp only [setConn, if_pos he, List.mem_cons] at h
      rcases h with h | h
      · exact Or.inl h
      · exact Or.inr (List.mem_cons_of_mem e h)
    · simp only [setConn, if_neg he, List.mem_cons] at h
      rcases h with h | h
      · exact Or.inr (by simp [h])
      · rcases ih h with h' | h'
        · exact Or.inl h'
        · exact Or.inr (List.mem_cons_of_mem e h')

theorem self_mem_setConn (l : List Conn) (c : Conn) : c ∈ setConn l c := by
  induction l with
  | nil => simp [setConn]
  | cons e rest ih =>
    by_cases he : e.id = c.id <;> simp [setConn, he, ih]

/-! Cap-invariant preservation. -/

theorem capInv_step (hr : Bool) (s : SrvState) (e : Ev) (h : capInv s) :
    capInv (step hr s e) := by
  obtain ⟨hlen, haddr⟩ := h
  cases e with
  | connect id addr =>
    simp only [step, connectStep, capInv]
    split_ifs with h5 h2
    · exact ⟨hlen, haddr⟩
    · exact ⟨hlen, haddr⟩
    · refine ⟨?_, fun a => ?_⟩
      · show (setConn s.conns ⟨id, addr, true, initLog hr s.buffer⟩).length ≤ 5
        have := length_setConn s.conns ⟨id, addr, true, initLog hr s.buffer⟩
        simp only [Nat.not_le] at h5
        omega
      · show countAddr (setConn s.conns ⟨id, addr, true, initLog hr s.buffer⟩) a ≤ 2
        by_cases ha : addr = a
        · subst ha
          have h1 := countAddr_setConn_le s.conns
            ⟨id, addr, true, initLog hr s.buffer⟩ addr
          simp only [Nat.not_le] at h2
          omega
        · have h1 := countAddr_setConn_of_ne s.conns
            ⟨id, addr, true, initLog hr s.buffer⟩ a (by simpa using ha)
          exact Nat.le_trans h1 (haddr a)
  | close i =>
    refine ⟨Nat.le_trans (List.length_filter_le _ _) hlen, fun a => ?_⟩
    exact Nat.le_trans (countAddr_filter_le _ _ a) (haddr a)
  | pong i =>
    constructor
    · simpa [step, pongStep] using hlen
    · intro a
      have := countAddr_map_addr_eq s.conns
        (fun c => if c.id = i then { c with isAlive := true } else c)
        (fun c => by by_cases h : c.id = i <;> simp [h]) a
      simpa [step, pongStep, this] using haddr a
  | heartbeat =>
    simp only [step, heartbeatTick_eq]
    constructor
    · simpa using Nat.le_trans (List.length_filter_le _ _) hlen
    · intro a
      have hm := countAddr_map_addr_eq
        (s.conns.filter fun c => c.isAlive)
        (fun c => { c with isAlive := false }) (fun c => rfl) a
      rw [hm]
      exact Nat.le_trans (countAddr_filter_le _ _ a) (haddr a)
  | ttlSweep expired =>
    rcases expired with _ | _
    · exact ⟨hlen, haddr⟩
    · exact ⟨by simp [step], fun a => by simp [step, countAddr]⟩
  | bcast d =>
    constructor
    · simpa [step, broadcastStep] using hlen
    · intro a
      have := countAddr_map_addr_eq s.conns
        (fun c => { c with log := c.log ++ [WireMsg.live d] })
        (fun c => rfl) a
      simpa [step, broadcastStep, this] using haddr a

theorem capInv_stepMany (hr : Bool) (evs : List Ev) (s : SrvState)
    (h : capInv s) : capInv (stepMany hr evs s) := by
  induction evs generalizing s with
  | nil => exact h
  | cons e evs ih => exact ih _ (capInv_step hr s e h)

/-- **C2** — In every reachable state the connections map holds at most
5 entries globally and at most 2 per remote address; an admission
attempt that would exceed the global (resp. per-address) cap returns
with the map unchanged and close code 1013. -/
theorem C2_connection_caps :
    (∀ hr evs, (reach hr evs).conns.length ≤ 5 ∧
      ∀ a, countAddr (reach hr evs).conns a ≤ 2) ∧
    (∀ hr s id addr, 5 ≤ s.conns.length →
      connectStep hr s id addr = (s, .closedGlobalCap)) ∧
    (∀ hr s id addr, s.conns.length < 5 → 2 ≤ countAddr s.conns addr →
      connectStep hr s id addr = (s, .closedPerIpCap)) := by
  refine ⟨fun hr evs => ?_, fun hr s id addr h5 => ?_,
    fun hr s id addr h5 h2 => ?_⟩
  · exact capInv_stepMany hr evs ⟨[], []⟩ ⟨by simp, fun a => by simp [countAddr]⟩
  · simp [connectStep, h5]
  · simp [connectStep, Nat.not_le.mpr h5, h2]

/-- Witness for C2: a one-connect trace satisfies the invariant, a sixth
connection is refused at five open ones, and a third same-address
connection is refused at two. -/
theorem C2_connection_caps_witness :
    (reach false [Ev.connect "c1" "a1"]).conns.length ≤ 5 ∧
    countAddr (reach false [Ev.connect "c1" "a1"]).conns "a1" ≤ 2 ∧
    connectStep false s5ex "c6" "a9" = (s5ex, .closedGlobalCap) ∧
    connectStep false s2ex "c3" "a1" = (s2ex, .closedPerIpCap) :=
  ⟨(C2_connection_caps.1 false [Ev.connect "c1" "a1"]).1,
   (C2_connection_caps.1 false [Ev.connect "c1" "a1"]).2 "a1",
   C2_connection_caps.2.1 false s5ex "c6" "a9" (by decide),
   C2_connection_caps.2.2 false s2ex "c3" "a1" (by decide) (by decide)⟩

theorem wsTicketCheck_consumed (now : Nat) (ts : TicketMap) (tid : String)
    (h : (wsTicketCheck now (some tid) ts).1 = true) :
    (wsTicketCheck now (some tid) ts).2 = mdel ts tid := by
  by_cases he : tid = ""
  · subst he
    simp [wsTicketCheck] at h
  · simp only [wsTicketCheck, if_neg he] at h ⊢
    exact ticketRedeem_state now ts tid

/-- **C3 counterexample** — the claim's check order is wrong: with five
connections already open, a valid ticket `"t1"` and an in-TTL session,
the upgrade is rejected for the *global cap*, yet the ticket has been
consumed (deleted during the `verifyClient` handshake, which runs before
the `connection`-handler cap checks). -/
theorem C3_counterexample :
    (upgradeAttempt false 1000 0 none (some "t1") [("t1", 61000)] s5ex
      "c6" "a9").1 = UpgradeOutcome.closedGlobalCap ∧
    mget [("t1", 61000)] "t1" = some 61000 ∧
    mget (upgradeAttempt false 1000 0 none (some "t1") [("t1", 61000)] s5ex
      "c6" "a9").2.1 "t1" = none := by
  decide

/-- **C3 (amended)** — On an upgrade request the checks run in source
order: (1) session TTL, (2) Origin, (3) ticket redemption — all inside
`verifyClient` during the handshake — and only then, inside the
`connection` handler, (4) the global cap and (5) the per-address cap.
Consequently an attempt rejected for either cap has already consumed
(deleted) the presented ticket, while TTL/Origin rejections leave the
ticket store untouched. -/
theorem C3_admission_order (hr : Bool) (now createdAt : Nat)
    (origin : Option OriginHeader) (tp : Option String) (ts : TicketMap)
    (s : SrvState) (id addr : String) :
    (SESSION_TTL < now - createdAt →
      upgradeAttempt hr now createdAt origin tp ts s id addr =
        (.handshakeRejected, ts, s)) ∧
    (now - createdAt ≤ SESSION_TTL → originOk origin = false →
      upgradeAttempt hr now createdAt origin tp ts s id addr =
        (.handshakeRejected, ts, s)) ∧
    (now - createdAt ≤ SESSION_TTL → originOk origin = true →
      (wsTicketCheck now tp ts).1 = false →
      upgradeAttempt hr now createdAt origin tp ts s id addr =
        (.handshakeRejected, (wsTicketCheck now tp ts).2, s)) ∧
    (∀ tid, tp = some tid → now - createdAt ≤ SESSION_TTL →
      originOk origin = true → (wsTicketCheck now tp ts).1 = true →
      5 ≤ s.conns.length →
      upgradeAttempt hr now createdAt origin tp ts s id addr =
        (.closedGlobalCap, mdel ts tid, s) ∧
      mget (mdel ts tid) tid = none) ∧
    (∀ tid, tp = some tid → now - createdAt ≤ SESSION_TTL →
      originOk origin = true → (wsTicketCheck now tp ts).1 = true →
      s.conns.length < 5 → 2 ≤ countAddr s.conns addr →
      upgradeAttempt hr now createdAt origin tp ts s id addr =
        (.closedPerIpCap, mdel ts tid, s) ∧
      mget (mdel ts tid) tid = none) ∧
    (now - createdAt ≤ SESSION_TTL → originOk origin = true →
      (wsTicketCheck now tp ts).1 = true → s.conns.length < 5 →
      countAddr s.conns addr < 2 →
      upgradeAttempt hr now createdAt origin tp ts s id addr =
        (.accepted, (wsTicketCheck now tp ts).2,
         { s with conns :=
            setConn s.conns ⟨id, addr, true, initLog hr s.buffer⟩ })) := by
  refine ⟨?_, ?_, ?_, ?_, ?_, ?_⟩
  · intro h1
    simp [upgradeAttempt, verifyClient, h1]
  · intro h1 h2
    simp [upgradeAttempt, verifyClient, Nat.not_lt.mpr h1, h2]
  · intro h1 h2 h3
    have hvc : verifyClient now createdAt origin tp ts =
        wsTicketCheck now tp ts := by
      simp [verifyClient, Nat.not_lt.mpr h1, h2]
    simp [upgradeAttempt, hvc, h3]
  · intro tid htp h1 h2 h4 h5
    subst htp
    have hvc : verifyClient now createdAt origin (some tid) ts =
        wsTicketCheck now (some tid) ts := by
      simp [verifyClient, Nat.not_lt.mpr h1, h2]
    have hcons := wsTicketCheck_consumed now ts tid h4
    refine ⟨?_, mget_mdel_self ts tid⟩
    simp [upgradeAttempt, hvc, h4, hcons, connectStep, h5]
  · intro tid htp h1 h2 h4 h5 h6
    subst htp
    have hvc : verifyClient now createdAt origin (some tid) ts =
        wsTicketCheck now (some tid) ts := by
      simp [verifyClient, Nat.not_lt.mpr h1, h2]
    have hcons := wsTicketCheck_consumed now ts tid h4
    refine ⟨?_, mget_mdel_self ts tid⟩
    simp [upgradeAttempt, hvc, h4, hcons, connectStep, Nat.not_le.mpr h5, h6]
  · intro h1 h2 h4 h5 h6
    have hvc : verifyClient now createdAt origin tp ts =
        wsTicketCheck now tp ts := by
      simp [verifyClient, Nat.not_lt.mpr h1, h2]
    simp [upgradeAttempt, hvc, h4, connectStep, Nat.not_le.mpr h5,
      Nat.not_le.mpr h6]

/-- Witness for the amended C3 at a concrete input: a cap-rejected
upgrade that consumed its (valid, in-TTL) ticket. -/
theorem C3_admission_order_witness :
    upgradeAttempt false 2000 0 none (some "t2") [("t2", 61000)] s5ex
      "c7" "a9" = (.closedGlobalCap, mdel [("t2", 61000)] "t2", s5ex) ∧
    mget (mdel [("t2", 61000)] "t2") "t2" = none :=
  (C3_admission_order false 2000 0 none (some "t2") [("t2", 61000)] s5ex
    "c7" "a9").2.2.2.1 "t2" rfl (by decide) (by decide) (by decide)
    (by decide)

/-! Replay-shape lemmas for C5. -/

theorem replayShape_initLog (buffer : List String) :
    replayShape (initLog true buffer) :=
  ⟨buffer, [], by simp [initLog], by simp⟩

theorem replayShape_step (s : SrvState) (e : Ev)
    (h : ∀ c ∈ s.conns, replayShape c.log) :
    ∀ c ∈ (step true s e).conns, replayShape c.log := by
  cases e with
  | connect id addr =>
    simp only [step, connectStep]
    split_ifs with h5 h2
    · exact h
    · exact h
    · intro c hc
      rcases mem_setConn hc with rfl | hmem
      · exact replayShape_initLog s.buffer
      · exact h c hmem
  | close i =>
    intro c hc
    exact h c (List.mem_of_mem_filter hc)
  | pong i =>
    intro c hc
    simp only [step, pongStep, List.mem_map] at hc
    obtain ⟨d, hd, rfl⟩ := hc
    have hlog : (if d.id = i then { d with isAlive := true } else d).log =
        d.log := by
      split <;> rfl
    rw [hlog]
    exact h d hd
  | heartbeat =>
    intro c hc
    simp only [step, heartbeatTick_eq, List.mem_map] at hc
    obtain ⟨d, hd, rfl⟩ := hc
    exact h d (List.mem_of_mem_filter hd)
  | ttlSweep expired =>
    cases expired with
    | false => exact h
    | true =>
      intro c hc
      simp [step] at hc
  | bcast dta =>
    intro c hc
    simp only [step, broadcastStep, List.mem_map] at hc
    obtain ⟨d, hd, rfl⟩ := hc
    obtain ⟨hist, rest, heq, hrest⟩ := h d hd
    refine ⟨hist, rest ++ [WireMsg.live dta], by simp [heq], ?_⟩
    intro x hx
    rcases List.mem_append.mp hx with hx | hx
    · exact hrest x hx
    · simp only [List.mem_singleton] at hx
      exact ⟨dta, hx⟩

/-- **C5** — With replay enabled, every per-socket message stream in
every reachable state is a redacted replay of some history followed by
the `_replay_done` sentinel followed only by live broadcasts (so the
sentinel, and the whole replay, precede every live message on that
socket); and the stream a socket receives at admission is exactly the
current buffer, each entry through `redactSecrets`, in buffer order,
plus the sentinel. -/
theorem C5_replay_before_live :
    (∀ evs c, c ∈ (reach true evs).conns → replayShape c.log) ∧
    (∀ (s : SrvState) id addr s',
      connectStep true s id addr = (s', .accepted) →
      (⟨id, addr, true,
        s.buffer.map (fun e => WireMsg.replayMsg (redactSecrets e)) ++
          [WireMsg.replayDone]⟩ : Conn) ∈ s'.conns) := by
  constructor
  · intro evs
    have hbase : ∀ c ∈ (⟨[], []⟩ : SrvState).conns, replayShape c.log := by
      intro c hc
      simp at hc
    have : ∀ (l : List Ev) (s : SrvState),
        (∀ c ∈ s.conns, replayShape c.log) →
        ∀ c ∈ (stepMany true l s).conns, replayShape c.log := by
      intro l
      induction l with
      | nil => intro s hs; exact hs
      | cons e l ih =>
        intro s hs
        exact ih _ (replayShape_step s e hs)
    exact fun c hc => this evs ⟨[], []⟩ hbase c hc
  · intro s id addr s' hacc
    by_cases h5 : 5 ≤ s.conns.length
    · simp [connectStep, h5] at hacc
    · by_cases h2 : 2 ≤ countAddr s.conns addr
      · simp [connectStep, h5, h2] at hacc
      · simp only [connectStep, if_neg h5, if_neg h2, Prod.mk.injEq] at hacc
        obtain ⟨hs', -⟩ := hacc
        subst hs'
        have := self_mem_setConn s.conns
          ⟨id, addr, true, initLog true s.buffer⟩
        simpa [initLog] using this

/-- Witness for C5 at a concrete trace: the sole admitted socket's
stream satisfies the shape, and an admission on an empty buffer receives
exactly the sentinel. -/
theorem C5_replay_before_live_witness :
    replayShape (Conn.log ⟨"w1", "wa", true, [WireMsg.replayDone]⟩) ∧
    (⟨"w1", "wa", true, [WireMsg.replayDone]⟩ : Conn) ∈
      (SrvState.conns ⟨[⟨"w1", "wa", true, [WireMsg.replayDone]⟩], []⟩) :=
  ⟨C5_replay_before_live.1 [Ev.connect "w1" "wa"]
      ⟨"w1", "wa", true, [WireMsg.replayDone]⟩ (by decide),
   C5_replay_before_live.2 ⟨[], []⟩ "w1" "wa"
      ⟨[⟨"w1", "wa", true, [WireMsg.replayDone]⟩], []⟩ (by decide)⟩

/-! Heartbeat lemmas for C7. -/

theorem hb_survivor_not_alive (l : List Conn) (c : Conn)
    (hc : c ∈ (heartbeatTick l).1) : c.isAlive = false := by
  rw [heartbeatTick_eq] at hc
  simp only [List.mem_map] at hc
  obtain ⟨d, -, rfl⟩ := hc
  rfl

theorem idDead_step (hr : Bool) (s : SrvState) (e : Ev) (i : String)
    (hp : e ≠ Ev.pong i) (hcn : ∀ a, e ≠ Ev.connect i a)
    (h : idDead i s.conns) : idDead i (step hr s e).conns := by
  cases e with
  | connect id addr =>
    have hne : id ≠ i := by
      intro hcontra
      exact hcn addr (by rw [hcontra])
    simp only [step, connectStep]
    split_ifs with h5 h2
    · exact h
    · exact h
    · intro c hc hcid
      rcases mem_setConn hc with rfl | hmem
      · exact absurd hcid hne
      · exact h c hmem hcid
  | close j =>
    intro c hc hcid
    exact h c (List.mem_of_mem_filter hc) hcid
  | pong j =>
    have hne : j ≠ i := by
      intro hcontra
      exact hp (by rw [hcontra])
    intro c hc hcid
    simp only [step, pongStep, List.mem_map] at hc
    obtain ⟨d, hd, rfl⟩ := hc
    by_cases hdj : d.id = j
    · rw [if_pos hdj] at hcid
      exact absurd (hdj.symm.trans hcid) hne
    · rw [if_neg hdj] at hcid ⊢
      exact h d hd hcid
  | heartbeat =>
    intro c hc _
    exact hb_survivor_not_alive s.conns c hc
  | ttlSweep expired =>
    cases expired with
    | false => exact h
    | true =>
      intro c hc hcid
      simp [step] at hc
  | bcast dta =>
    intro c hc hcid
    simp only [step, broadcastStep, List.mem_map] at hc
    obtain ⟨d, hd, rfl⟩ := hc
    exact h d hd hcid

theorem idDead_stepMany (hr : Bool) (evs : List Ev) (s : SrvState)
    (i : String) (hp : ∀ e ∈ evs, e ≠ Ev.pong i)
    (hcn : ∀ a, Ev.connect i a ∉ evs) (h : idDead i s.conns) :
    idDead i (stepMany hr evs s).conns := by
  induction evs generalizing s with
  | nil => exact h
  | cons e evs ih =>
    have hp' : ∀ e' ∈ evs, e' ≠ Ev.pong i :=
      fun e' he' => hp e' (List.mem_cons_of_mem e he')
    have hcn' : ∀ a, Ev.connect i a ∉ evs :=
      fun a ha => hcn a (List.mem_cons_of_mem e ha)
    have hps : e ≠ Ev.pong i := hp e (List.mem_cons_self e evs)
    have hcs : ∀ a, e ≠ Ev.connect i a := by
      intro a hcontra
      refine hcn a ?_
      rw [← hcontra]
      exact List.mem_cons_self e evs
    exact ih _ hp' hcn' (idDead_step hr s e i hps hcs h)

/-- **C7** — One heartbeat tick visits every tracked socket: sockets
whose previous ping went unanswered (`_isAlive = false`) are terminated
and removed, the rest are marked unanswered and pinged; a terminated
socket is not among the pinged ids; and a socket that was pinged at one
tick and receives no pong before the next tick (and whose id is not
re-connected) is gone after that next tick and is not pinged by it —
detection takes exactly one further tick. -/
theorem C7_heartbeat_detection :
    (∀ l, heartbeatTick l =
      ((l.filter fun c => c.isAlive).map (fun c => { c with isAlive := false }),
       l.filter (fun c => !c.isAlive),
       (l.filter fun c => c.isAlive).map (fun c => c.id))) ∧
    (∀ (l : List Conn) (c : Conn), (l.map (fun c => c.id)).Nodup →
      c ∈ (heartbeatTick l).2.1 → c.id ∉ (heartbeatTick l).2.2) ∧
    (∀ hr (s : SrvState) evs i,
      (∀ e ∈ evs, e ≠ Ev.pong i) → (∀ a, Ev.connect i a ∉ evs) →
      (∀ c ∈ (heartbeatTick
          (stepMany hr evs (step hr s Ev.heartbeat)).conns).1, c.id ≠ i) ∧
      i ∉ (heartbeatTick
          (stepMany hr evs (step hr s Ev.heartbeat)).conns).2.2) := by
  refine ⟨heartbeatTick_eq, ?_, ?_⟩
  · intro l c hnd hc hmem
    rw [heartbeatTick_eq] at hc hmem
    have hc2 : c ∈ l.filter (fun c => !c.isAlive) := hc
    have hmem2 : c.id ∈ (l.filter fun c => c.isAlive).map (fun c => c.id) :=
      hmem
    simp only [List.mem_map] at hmem2
    obtain ⟨d, hd, hdid⟩ := hmem2
    have hcl : c ∈ l := List.mem_of_mem_filter hc2
    have hdl : d ∈ l := List.mem_of_mem_filter hd
    have heq : d = c := List.inj_on_of_nodup_map hnd hdl hcl hdid
    have hca := List.of_mem_filter hc2
    have hda : c.isAlive = true := by
      have := List.of_mem_filter hd
      rw [heq] at this
      simpa using this
    simp [hda] at hca
  · intro hr s evs i hp hcn
    have h1 : idDead i (step hr s Ev.heartbeat).conns := fun c hc _ =>
      hb_survivor_not_alive s.conns c hc
    have h2 : idDead i (stepMany hr evs (step hr s Ev.heartbeat)).conns :=
      idDead_stepMany hr evs _ i hp hcn h1
    constructor
    · intro c hc hci
      rw [heartbeatTick_eq] at hc
      have hc2 : c ∈ ((stepMany hr evs (step hr s Ev.heartbeat)).conns.filter
          fun c => c.isAlive).map (fun c => { c with isAlive := false }) := hc
      simp only [List.mem_map] at hc2
      obtain ⟨d, hd, rfl⟩ := hc2
      have hdid : d.id = i := hci
      have hda : d.isAlive = true := by
        simpa using List.of_mem_filter hd
      have := h2 d (List.mem_of_mem_filter hd) hdid
      rw [hda] at this
      cases this
    · intro hmem
      rw [heartbeatTick_eq] at hmem
      have hmem2 : i ∈ ((stepMany hr evs (step hr s Ev.heartbeat)).conns.filter
          fun c => c.isAlive).map (fun c => c.id) := hmem
      simp only [List.mem_map] at hmem2
      obtain ⟨d, hd, hdid⟩ := hmem2
      have hda : d.isAlive = true := by
        simpa using List.of_mem_filter hd
      have := h2 d (List.mem_of_mem_filter hd) hdid
      rw [hda] at this
      cases this

/-- Witness for C7: a socket pinged at one tick with no pong in between
is not pinged again at the next tick (it is terminated first). -/
theorem C7_heartbeat_detection_witness :
    "x" ∉ (heartbeatTick (stepMany false []
      (step false ⟨[⟨"x", "ax", true, []⟩], []⟩ Ev.heartbeat)).conns).2.2 :=
  (C7_heartbeat_detection.2.2 false ⟨[⟨"x", "ax", true, []⟩], []⟩ [] "x"
    (by simp) (by simp)).2

/-- **C8** — Environment filtering for the spawned PTY: every variable
that reaches the child environment is outside the dangerous-variable
blocklist and does not match the secret-bearing name pattern;
equivalently, a blocklisted or secret-pattern-matching name is never
forwarded. -/
theorem C8_env_filtering :
    (∀ (env : List (String × Option String)) (k v : String),
      (k, v) ∈ safeEnv env →
      k ∉ DANGEROUS_VARS ∧ sensitivePattern k = false) ∧
    (∀ (env : List (String × Option String)) (k v : String),
      k ∈ DANGEROUS_VARS ∨ sensitivePattern k = true →
      (k, v) ∉ safeEnv env) := by
  have main : ∀ (env : List (String × Option String)) (k v : String),
      (k, v) ∈ safeEnv env →
      k ∉ DANGEROUS_VARS ∧ sensitivePattern k = false := by
    intro env k v h
    simp only [safeEnv, List.mem_filterMap] at h
    obtain ⟨⟨k', ov⟩, hmem, hsome⟩ := h
    cases ov with
    | none => simp at hsome
    | some v' =>
      by_cases hcond :
          (!(DANGEROUS_VARS.contains k') && !(sensitivePattern k')) = true
      · rw [show (match (k', some v').2 with
            | some v =>
              if !(DANGEROUS_VARS.contains (k', some v').1) &&
                  !(sensitivePattern (k', some v').1) then
                some ((k', some v').1, v)
              else none
            | none => none) =
            (if !(DANGEROUS_VARS.contains k') && !(sensitivePattern k') then
              some (k', v') else none) from rfl, if_pos hcond] at hsome
        have hpair := Option.some.inj hsome
        have hk1 : k' = k := congrArg Prod.fst hpair
        subst hk1
        simp only [Bool.and_eq_true, Bool.not_eq_true'] at hcond
        obtain ⟨hc1, hc2⟩ := hcond
        refine ⟨?_, hc2⟩
        intro hmem'
        have helem : DANGEROUS_VARS.contains k' = true :=
          List.elem_iff.mpr hmem'
        rw [hc1] at helem
        cases helem
      · rw [show (match (k', some v').2 with
            | some v =>
              if !(DANGEROUS_VARS.contains (k', some v').1) &&
                  !(sensitivePattern (k', some v').1) then
                some ((k', some v').1, v)
              else none
            | none => none) =
            (if !(DANGEROUS_VARS.contains k') && !(sensitivePattern k') then
              some (k', v') else none) from rfl, if_neg hcond] at hsome
        cases hsome
  refine ⟨main, ?_⟩
  intro env k v h hmem
  rcases main env k v hmem with ⟨h1, h2⟩
  rcases h with h | h
  · exact h1 h
  · rw [h2] at h
    cases h

/-- Witness for C8: a safe variable passes with a non-dangerous,
non-secret name; `NODE_OPTIONS` (blocklist) and `GITHUB_TOKEN` (secret
pattern) are dropped. -/
theorem C8_env_filtering_witness :
    ("PATH" ∉ DANGEROUS_VARS ∧ sensitivePattern "PATH" = false) ∧
    ("NODE_OPTIONS", "--inspect") ∉
      safeEnv [("NODE_OPTIONS", some "--inspect")] ∧
    ("GITHUB_TOKEN", "ghp") ∉ safeEnv [("GITHUB_TOKEN", some "ghp")] :=
  ⟨C8_env_filtering.1 [("PATH", some "/bin")] "PATH" "/bin" (by decide),
   C8_env_filtering.2 [("NODE_OPTIONS", some "--inspect")] "NODE_OPTIONS"
     "--inspect" (Or.inl (by decide)),
   C8_env_filtering.2 [("GITHUB_TOKEN", some "ghp")] "GITHUB_TOKEN" "ghp"
     (Or.inr (by decide))⟩

/-- **C9** — The hub's `/api/proxy/ticket/:port` handler: a url that is
not the literal prefix plus digits, or a port outside 1–65535, yields
400 "Invalid port"; a port matching no local session record yields 404
"Session not found"; an unreachable or non-2xx sibling yields 502 with
the fixed "Session unreachable" error; success yields 200 with a body
holding exactly the ticket (string) and the port (number); and no
response body ever contains the sibling's long-lived token (which is
distinct from the fixed error strings and from any minted ticket). -/
theorem C9_proxy_ticket (url : String) (files : List (Option SessionRec))
    (fetchRes : Nat → String → FetchOutcome) :
    (ticketPathDigits url = none →
      proxyTicketHandler url files fetchRes = .invalidPort) ∧
    (∀ ds, ticketPathDigits url = some ds →
      (digitsToNat ds < 1 ∨ 65535 < digitsToNat ds) →
      proxyTicketHandler url files fetchRes = .invalidPort) ∧
    (∀ ds, ticketPathDigits url = some ds →
      ¬(digitsToNat ds < 1 ∨ 65535 < digitsToNat ds) →
      (readLocalSessions files).find?
        (fun s => s.port = digitsToNat ds) = none →
      proxyTicketHandler url files fetchRes = .notFoundSession) ∧
    (∀ ds sess, ticketPathDigits url = some ds →
      ¬(digitsToNat ds < 1 ∨ 65535 < digitsToNat ds) →
      (readLocalSessions files).find?
        (fun s => s.port = digitsToNat ds) = some sess →
      (fetchRes (digitsToNat ds) sess.token = .badStatus ∨
       fetchRes (digitsToNat ds) sess.token = .unreachable) →
      proxyTicketHandler url files fetchRes = .unreachableSession) ∧
    (∀ ds sess t, ticketPathDigits url = some ds →
      ¬(digitsToNat ds < 1 ∨ 65535 < digitsToNat ds) →
      (readLocalSessions files).find?
        (fun s => s.port = digitsToNat ds) = some sess →
      fetchRes (digitsToNat ds) sess.token = .success t →
      proxyTicketHandler url files fetchRes = .ticketOk t (digitsToNat ds) ∧
      proxyBodyStrings (.ticketOk t (digitsToNat ds)) = [t]) ∧
    (proxyStatus .invalidPort = 400 ∧ proxyStatus .notFoundSession = 404 ∧
      proxyStatus .unreachableSession = 502 ∧
      ∀ t p, proxyStatus (.ticketOk t p) = 200) ∧
    (∀ tok, tok ≠ "Invalid port" → tok ≠ "Session not found" →
      tok ≠ "Session unreachable" →
      (∀ p stok t, fetchRes p stok = .success t → t ≠ tok) →
      tok ∉ proxyBodyStrings (proxyTicketHandler url files fetchRes)) := by
  refine ⟨?_, ?_, ?_, ?_, ?_, ⟨rfl, rfl, rfl, fun t p => rfl⟩, ?_⟩
  · intro h
    simp only [proxyTicketHandler, h]
  · intro ds hds hr
    simp only [proxyTicketHandler, hds]
    rw [if_pos hr]
  · intro ds hds hr hf
    simp only [proxyTicketHandler, hds]
    rw [if_neg hr, hf]
  · intro ds sess hds hr hf ho
    simp only [proxyTicketHandler, hds]
    rw [if_neg hr, hf]
    rcases ho with ho | ho <;> simp only [ho]
  · intro ds sess t hds hr hf ho
    refine ⟨?_, rfl⟩
    simp only [proxyTicketHandler, hds]
    rw [if_neg hr, hf]
    simp only [ho]
  · intro tok h1 h2 h3 h4
    cases hds : ticketPathDigits url with
    | none =>
      have : proxyTicketHandler url files fetchRes = .invalidPort := by
        simp only [proxyTicketHandler, hds]
      rw [this]
      simpa [proxyBodyStrings] using h1
    | some ds =>
      by_cases hr : digitsToNat ds < 1 ∨ 65535 < digitsToNat ds
      · have : proxyTicketHandler url files fetchRes = .invalidPort := by
          simp only [proxyTicketHandler, hds]
          rw [if_pos hr]
        rw [this]
        simpa [proxyBodyStrings] using h1
      · cases hf : (readLocalSessions files).find?
            (fun s => s.port = digitsToNat ds) with
        | none =>
          have : proxyTicketHandler url files fetchRes = .notFoundSession := by
            simp only [proxyTicketHandler, hds]
            rw [if_neg hr, hf]
          rw [this]
          simpa [proxyBodyStrings] using h2
        | some sess =>
          cases ho : fetchRes (digitsToNat ds) sess.token with
          | success t =>
            have : proxyTicketHandler url files fetchRes =
                .ticketOk t (digitsToNat ds) := by
              simp only [proxyTicketHandler, hds]
              rw [if_neg hr, hf]
              simp only [ho]
            rw [this]
            simp only [proxyBodyStrings, List.mem_singleton]
            intro hh
            exact h4 (digitsToNat ds) sess.token t ho hh.symm
          | badStatus =>
            have : proxyTicketHandler url files fetchRes =
                .unreachableSession := by
              simp only [proxyTicketHandler, hds]
              rw [if_neg hr, hf]
              simp only [ho]
            rw [this]
            simpa [proxyBodyStrings] using h3
          | unreachable =>
            have : proxyTicketHandler url files fetchRes =
                .unreachableSession := by
              simp only [proxyTicketHandler, hds]
              rw [if_neg hr, hf]
              simp only [ho]
            rw [this]
            simpa [proxyBodyStrings] using h3

/-- Witness for C9 at concrete inputs: each of the four outcomes, plus
token non-exposure on the success path. -/
theorem C9_proxy_ticket_witness :
    proxyTicketHandler "/api/proxy/ticket/abc" []
      (fun _ _ => .badStatus) = .invalidPort ∧
    proxyTicketHandler "/api/proxy/ticket/70000" []
      (fun _ _ => .badStatus) = .invalidPort ∧
    proxyTicketHandler "/api/proxy/ticket/3456" []
      (fun _ _ => .badStatus) = .notFoundSession ∧
    proxyTicketHandler "/api/proxy/ticket/3456"
      [some ⟨"sekrit", "n", "tid", "turl", 3456, false⟩]
      (fun _ _ => .badStatus) = .unreachableSession ∧
    proxyTicketHandler "/api/proxy/ticket/3456"
      [some ⟨"sekrit", "n", "tid", "turl", 3456, false⟩]
      (fun _ _ => .success "tick1") = .ticketOk "tick1" 3456 ∧
    "sekrit" ∉ proxyBodyStrings (proxyTicketHandler "/api/proxy/ticket/3456"
      [some ⟨"sekrit", "n", "tid", "turl", 3456, false⟩]
      (fun _ _ => .success "tick1")) := by
  refine ⟨?_, ?_, ?_, ?_, ?_, ?_⟩
  · exact (C9_proxy_ticket "/api/proxy/ticket/abc" []
      (fun _ _ => .badStatus)).1 (by decide)
  · exact (C9_proxy_ticket "/api/proxy/ticket/70000" []
      (fun _ _ => .badStatus)).2.1 "70000" (by decide) (by decide)
  · exact (C9_proxy_ticket "/api/proxy/ticket/3456" []
      (fun _ _ => .badStatus)).2.2.1 "3456" (by decide) (by decide) (by decide)
  · exact (C9_proxy_ticket "/api/proxy/ticket/3456"
      [some ⟨"sekrit", "n", "tid", "turl", 3456, false⟩]
      (fun _ _ => .badStatus)).2.2.2.1 "3456"
      ⟨"sekrit", "n", "tid", "turl", 3456, false⟩ (by decide) (by decide)
      (by decide) (Or.inl rfl)
  · exact ((C9_proxy_ticket "/api/proxy/ticket/3456"
      [some ⟨"sekrit", "n", "tid", "turl", 3456, false⟩]
      (fun _ _ => .success "tick1")).2.2.2.2.1 "3456"
      ⟨"sekrit", "n", "tid", "turl", 3456, false⟩ "tick1" (by decide)
      (by decide) (by decide) rfl).1
  · refine (C9_proxy_ticket "/api/proxy/ticket/3456"
      [some ⟨"sekrit", "n", "tid", "turl", 3456, false⟩]
      (fun _ _ => .success "tick1")).2.2.2.2.2.2 "sekrit" (by decide)
      (by decide) (by decide) ?_
    intro p stok t h
    have ht : t = "tick1" := by
      cases h
      rfl
    rw [ht]
    decide

/-! String-plumbing lemmas for the dispatcher (C10). -/

theorem takeWhileAppendAll (p : Char → Bool) (l₁ l₂ : List Char)
    (h : ∀ c ∈ l₁, p c = true) :
    (l₁ ++ l₂).takeWhile p = l₁ ++ l₂.takeWhile p := by
  induction l₁ with
  | nil => simp
  | cons c cs ih =>
    have hc : p c = true := h c (by simp)
    simp [List.takeWhile_cons, hc, ih (fun c' hc' => h c' (by simp [hc']))]

theorem dropWhileAppendAll (p : Char → Bool) (l₁ l₂ : List Char)
    (h : ∀ c ∈ l₁, p c = true) :
    (l₁ ++ l₂).dropWhile p = l₂.dropWhile p := by
  induction l₁ with
  | nil => simp
  | cons c cs ih =>
    have hc : p c = true := h c (by simp)
    simp [List.dropWhile_cons, hc, ih (fun c' hc' => h c' (by simp [hc']))]

theorem splitAmp_no_amp (cs : List Char) (h : '&' ∉ cs) :
    splitAmp cs = [cs] := by
  induction cs with
  | nil => rfl
  | cons c cs ih =>
    have hc : ¬ c = '&' := fun hh => h (by simp [hh])
    have ih' : splitAmp cs = [cs] := ih (fun hh => h (by simp [hh]))
    simp [splitAmp, hc, ih']

theorem removeFirstSubAppend (pat rest : List Char) (hne : pat ≠ []) :
    removeFirstSub pat (pat ++ rest) = rest := by
  cases pat with
  | nil => cases hne rfl
  | cons p ps =>
    have hp : (p :: ps).isPrefixOf (p :: (ps ++ rest)) = true := by
      rw [← List.cons_append]
      exact List.isPrefixOf_iff_prefix.mpr (List.prefix_append _ _)
    rw [List.cons_append]
    rw [show removeFirstSub (p :: ps) (p :: (ps ++ rest)) =
        if (p :: ps).isPrefixOf (p :: (ps ++ rest)) then
          (p :: (ps ++ rest)).drop (p :: ps).length
        else p :: removeFirstSub (p :: ps) (ps ++ rest) from rfl]
    rw [if_pos hp, ← List.cons_append, List.drop_left]

theorem stripBearerStr_append (tok : String) :
    stripBearerStr ("Bearer " ++ tok) = tok := by
  simp only [stripBearerStr, String.data_append]
  rw [removeFirstSubAppend _ _ (by decide)]

theorem strHasPre_append_of (p base rest : String)
    (h : strHasPre p base = true) :
    strHasPre p (base ++ rest) = true := by
  simp only [strHasPre, List.isPrefixOf_iff_prefix, String.data_append] at h ⊢
  exact h.trans (List.prefix_append _ _)

theorem token_url_ne (base tok other : String)
    (hlen : other.data.length < base.data.length + 7) :
    base ++ "?token=" ++ tok ≠ other := by
  intro h
  have hd := congrArg String.data h
  rw [String.data_append, String.data_append] at hd
  have hl := congrArg List.length hd
  rw [List.length_append, List.length_append] at hl
  have h8 : ("?token=" : String).data.length = 7 := rfl
  rw [h8] at hl
  omega

theorem data_token_append (base tok : String) :
    (base ++ "?token=" ++ tok).data =
      base.data ++ '?' :: ("token=".data ++ tok.data) := by
  rw [String.data_append, String.data_append]
  rw [show ("?token=" : String).data = '?' :: "token=".data from rfl]
  rw [List.append_assoc]
  rfl

theorem token_eq_split (tok : String) :
    ("token=".data ++ tok.data) = "token".data ++ '=' :: tok.data := by
  rw [show ("token=" : String).data = "token".data ++ ['='] from rfl]
  rw [List.append_assoc]
  rfl

theorem urlPathOf_token_append (base tok : String)
    (hbase : ∀ c ∈ base.data, ¬ c = '?') :
    urlPathOf (base ++ "?token=" ++ tok) = base := by
  show String.mk (((base ++ "?token=" ++ tok).data).takeWhile
      (fun c => decide (c ≠ '?'))) = base
  rw [data_token_append]
  rw [takeWhileAppendAll _ base.data _
    (fun c hc => decide_eq_true (hbase c hc))]
  rw [List.takeWhile_cons_of_neg (by simp)]
  rw [List.append_nil]

theorem queryOf_token_append (base tok : String)
    (hbase : ∀ c ∈ base.data, ¬ c = '?') :
    (queryOf (base ++ "?token=" ++ tok)).data =
      "token=".data ++ tok.data := by
  show ((((base ++ "?token=" ++ tok).data).dropWhile
      (fun c => decide (c ≠ '?'))).drop 1) = _
  rw [data_token_append]
  rw [dropWhileAppendAll _ base.data _
    (fun c hc => decide_eq_true (hbase c hc))]
  rw [List.dropWhile_cons_of_neg (by simp)]
  rfl

theorem getParam_token_append (base tok : String)
    (hbase : ∀ c ∈ base.data, ¬ c = '?')
    (htok : '&' ∉ tok.data) :
    getParam (base ++ "?token=" ++ tok) "token" = some tok := by
  have hqd := queryOf_token_append base tok hbase
  have hqne : ¬ queryOf (base ++ "?token=" ++ tok) = "" := by
    intro h
    have hd := congrArg String.data h
    rw [hqd, token_eq_split] at hd
    rw [show ("token" : String).data = 't' :: "oken".data from rfl] at hd
    simp at hd
  have hamp : '&' ∉ ("token=".data ++ tok.data) := by
    intro hm
    rcases List.mem_append.mp hm with hm | hm
    · revert hm
      decide
    · exact htok hm
  have hkey : paramKey (String.mk ("token=".data ++ tok.data)) = "token" := by
    show String.mk (("token=".data ++ tok.data).takeWhile
        (fun c => decide (c ≠ '='))) = "token"
    rw [token_eq_split]
    rw [takeWhileAppendAll _ "token".data _ (by decide)]
    rw [List.takeWhile_cons_of_neg (by simp)]
    rw [List.append_nil]
  have hval : paramVal (String.mk ("token=".data ++ tok.data)) = tok := by
    show String.mk ((("token=".data ++ tok.data).dropWhile
        (fun c => decide (c ≠ '='))).drop 1) = tok
    rw [token_eq_split]
    rw [dropWhileAppendAll _ "token".data _ (by decide)]
    rw [List.dropWhile_cons_of_neg (by simp)]
    rfl
  have hkey2 : paramKey (String.mk
      ('t' :: 'o' :: 'k' :: 'e' :: 'n' :: '=' :: tok.data)) = "token" := hkey
  have hval2 : paramVal (String.mk
      ('t' :: 'o' :: 'k' :: 'e' :: 'n' :: '=' :: tok.data)) = tok := hval
  simp only [getParam, if_neg hqne, hqd, splitAmp_no_amp _ hamp]
  simp [List.find?, hkey2, hval2]

/-- **C10 counterexample** — the claim says a request presenting the
correct session token solely as the `token` query parameter is answered
401.  In fact the ticket route matches `req.url === '/api/auth/ticket'`
*exactly*, so the query-bearing url bypasses it, passes the general F-01
token check, and falls through to static file serving (404 on the real
UI directory, which has no `api/auth/ticket` asset) — not 401. -/
theorem C10_counterexample :
    (apiDispatch ⟨"TOK", false, 0⟩ 1000
      ⟨"/api/auth/ticket?token=TOK", "POST", none, "ip1"⟩ [] [] [] "fresh"
      [] (fun _ _ => .badStatus)).1 = .staticServe "/api/auth/ticket" ∧
    respStatus (apiDispatch ⟨"TOK", false, 0⟩ 1000
      ⟨"/api/auth/ticket?token=TOK", "POST", none, "ip1"⟩ [] [] [] "fresh"
      [] (fun _ _ => .badStatus)).1 ≠ some 401 := by
  decide

/-- **C10 (amended)** — `POST /api/auth/ticket` (exact url)
authenticates only via the Authorization header: a wrong or missing
header yields the bare 401, the correct header yields the ticket.  A
request carrying the correct token solely as a `token` query parameter
has a different `req.url`, so it never reaches the ticket handler: it
passes the general F-01 token check and falls through to the static file
handler (404 in practice) — it is not answered 401.  Other `/api` routes
(e.g. `GET /api/sessions`) accept the token via query parameter or
Authorization header alike. -/
theorem C10_header_only_ticket_auth :
    (∀ (ctx : SrvCtx) now (req : HReq) rl trl ts ft files fr,
      req.url = "/api/auth/ticket" → req.method = "POST" →
      (rateGate now req.ip req.url rl trl).1 = true →
      now - ctx.createdAt ≤ SESSION_TTL →
      ¬ req.authHeader.map stripBearerStr = some ctx.sessionToken →
      (apiDispatch ctx now req rl trl ts ft files fr).1 =
        .unauthorizedBare ∧ respStatus .unauthorizedBare = some 401) ∧
    (∀ (ctx : SrvCtx) now (req : HReq) rl trl ts ft files fr,
      req.url = "/api/auth/ticket" → req.method = "POST" →
      (rateGate now req.ip req.url rl trl).1 = true →
      now - ctx.createdAt ≤ SESSION_TTL →
      req.authHeader.map stripBearerStr = some ctx.sessionToken →
      (apiDispatch ctx now req rl trl ts ft files fr).1 =
        .ticketIssued ft (now + 60000)) ∧
    (∀ (ctx : SrvCtx) now rl trl ts ft files fr ip,
      ctx.hubMode = false → now - ctx.createdAt ≤ SESSION_TTL →
      mget rl ip = none → '&' ∉ ctx.sessionToken.data →
      (apiDispatch ctx now
        ⟨"/api/auth/ticket?token=" ++ ctx.sessionToken, "POST",
          none, ip⟩ rl trl ts ft files fr).1 =
        .staticServe "/api/auth/ticket") ∧
    (∀ (ctx : SrvCtx) now rl trl ts ft files fr ip,
      ctx.hubMode = false → now - ctx.createdAt ≤ SESSION_TTL →
      mget rl ip = none → '&' ∉ ctx.sessionToken.data →
      (apiDispatch ctx now
        ⟨"/api/sessions?token=" ++ ctx.sessionToken, "GET",
          none, ip⟩ rl trl ts ft files fr).1 = .sessionsList) ∧
    (∀ (ctx : SrvCtx) now rl trl ts ft files fr ip,
      ctx.hubMode = false → now - ctx.createdAt ≤ SESSION_TTL →
      mget rl ip = none → ctx.sessionToken ≠ "" →
      (apiDispatch ctx now
        ⟨"/api/sessions", "GET", some ("Bearer " ++ ctx.sessionToken), ip⟩
        rl trl ts ft files fr).1 = .sessionsList) := by
  refine ⟨?_, ?_, ?_, ?_, ?_⟩
  · intro ctx now req rl trl ts ft files fr hurl hmeth hgate httl hauth
    rw [hurl] at hgate
    have hapi : strHasPre "/api/" "/api/auth/ticket" = true := by decide
    refine ⟨?_, rfl⟩
    simp [apiDispatch, hurl, hmeth, hapi, hgate, Nat.not_lt.mpr httl, hauth]
  · intro ctx now req rl trl ts ft files fr hurl hmeth hgate httl hauth
    rw [hurl] at hgate
    have hapi : strHasPre "/api/" "/api/auth/ticket" = true := by decide
    simp [apiDispatch, hurl, hmeth, hapi, hgate, Nat.not_lt.mpr httl, hauth]
  · intro ctx now rl trl ts ft files fr ip hhub httl hm htok
    have hjoin : ("/api/auth/ticket" : String) ++ "?token=" ++
        ctx.sessionToken = "/api/auth/ticket?token=" ++ ctx.sessionToken := by
      rw [show ("/api/auth/ticket" : String) ++ "?token=" =
        "/api/auth/ticket?token=" from by decide]
    have hapi : strHasPre "/api/"
        ("/api/auth/ticket?token=" ++ ctx.sessionToken) = true :=
      strHasPre_append_of _ _ _ (by decide)
    have hne : "/api/auth/ticket?token=" ++ ctx.sessionToken ≠
        "/api/auth/ticket" := by
      rw [← hjoin]
      exact token_url_ne _ _ _ (by decide)
    have hgp : getParam
        ("/api/auth/ticket?token=" ++ ctx.sessionToken) "token" =
        some ctx.sessionToken := by
      rw [← hjoin]
      exact getParam_token_append _ _ (by decide) htok
    have hpath : urlPathOf
        ("/api/auth/ticket?token=" ++ ctx.sessionToken) =
        "/api/auth/ticket" := by
      rw [← hjoin]
      exact urlPathOf_token_append _ _ (by decide)
    have hgate : (rateGate now ip
        ("/api/auth/ticket?token=" ++ ctx.sessionToken) rl trl).1 =
        true := by
      simp [rateGate, hne, checkRateLimit, hm]
    have hauthok : authTokenOf
        ("/api/auth/ticket?token=" ++ ctx.sessionToken) none =
        some ctx.sessionToken := by
      simp [authTokenOf, hgp]
    simp [apiDispatch, hapi, hgate, Nat.not_lt.mpr httl, hne, hhub,
      hauthok, hpath]
  · intro ctx now rl trl ts ft files fr ip hhub httl hm htok
    have hjoin : ("/api/sessions" : String) ++ "?token=" ++
        ctx.sessionToken = "/api/sessions?token=" ++ ctx.sessionToken := by
      rw [show ("/api/sessions" : String) ++ "?token=" =
        "/api/sessions?token=" from by decide]
    have hapi : strHasPre "/api/"
        ("/api/sessions?token=" ++ ctx.sessionToken) = true :=
      strHasPre_append_of _ _ _ (by decide)
    have hne : "/api/sessions?token=" ++ ctx.sessionToken ≠
        "/api/auth/ticket" := by
      rw [← hjoin]
      exact token_url_ne _ _ _ (by decide)
    have hpre : strHasPre "/api/sessions?"
        ("/api/sessions?token=" ++ ctx.sessionToken) = true :=
      strHasPre_append_of _ _ _ (by decide)
    have hgp : getParam
        ("/api/sessions?token=" ++ ctx.sessionToken) "token" =
        some ctx.sessionToken := by
      rw [← hjoin]
      exact getParam_token_append _ _ (by decide) htok
    have hgate : (rateGate now ip
        ("/api/sessions?token=" ++ ctx.sessionToken) rl trl).1 =
        true := by
      simp [rateGate, hne, checkRateLimit, hm]
    have hauthok : authTokenOf
        ("/api/sessions?token=" ++ ctx.sessionToken) none =
        some ctx.sessionToken := by
      simp [authTokenOf, hgp]
    simp [apiDispatch, hapi, hgate, Nat.not_lt.mpr httl, hne, hhub,
      hauthok, hpre]
  · intro ctx now rl trl ts ft files fr ip hhub httl hm htok0
    have hapi : strHasPre "/api/" "/api/sessions" = true := by decide
    have hne : ("/api/sessions" : String) ≠ "/api/auth/ticket" := by decide
    have hgate : (rateGate now ip "/api/sessions" rl trl).1 = true := by
      simp [rateGate, hne, checkRateLimit, hm]
    have hauthok : authTokenOf "/api/sessions"
        (some ("Bearer " ++ ctx.sessionToken)) = some ctx.sessionToken := by
      simp [authTokenOf, stripBearerStr_append, htok0]
    simp [apiDispatch, hapi, hgate, Nat.not_lt.mpr httl, hne, hhub, hauthok]

/-- Witness for the amended C10: a concrete query-token request falls
through to static serving, and a concrete header request mints the
ticket. -/
theorem C10_header_only_ticket_auth_witness :
    (apiDispatch ⟨"tok-1", false, 0⟩ 500
      ⟨"/api/auth/ticket?token=" ++ "tok-1", "POST", none, "ip9"⟩
      [] [] [] "fresh" [] (fun _ _ => .badStatus)).1 =
      .staticServe "/api/auth/ticket" ∧
    (apiDispatch ⟨"tok-1", false, 0⟩ 500
      ⟨"/api/auth/ticket", "POST", some "Bearer tok-1", "ip9"⟩
      [] [] [] "fresh" [] (fun _ _ => .badStatus)).1 =
      .ticketIssued "fresh" 60500 :=
  ⟨C10_header_only_ticket_auth.2.2.1 ⟨"tok-1", false, 0⟩ 500 [] [] []
      "fresh" [] (fun _ _ => .badStatus) "ip9" rfl (by decide) rfl
      (by decide),
   C10_header_only_ticket_auth.2.1 ⟨"tok-1", false, 0⟩ 500
      ⟨"/api/auth/ticket", "POST", some "Bearer tok-1", "ip9"⟩ [] [] []
      "fresh" [] (fun _ _ => .badStatus) rfl rfl (by decide) (by decide)
      (by decide)⟩

/-- **C6 counterexample** — `redactSecrets` is not idempotent.  On
`"key=key= aaaaaaaa"` the generic pattern's first match starts at the
second `key` (at the first one, `\S{8,}` finds only 4 non-space
characters), producing `"key=[REDACTED]"`; re-applying redaction then
matches `key=[REDACTED]` itself (`[REDACTED]` is 10 non-space
characters), yielding `"[REDACTED]"` ≠ the first output. -/
theorem C6_counterexample :
    redactSecrets "key=key= aaaaaaaa" = "key=[REDACTED]" ∧
    redactSecrets (redactSecrets "key=key= aaaaaaaa") = "[REDACTED]" ∧
    redactSecrets (redactSecrets "key=key= aaaaaaaa") ≠
      redactSecrets "key=key= aaaaaaaa" := by
  decide

/-- **C6 (amended)** — `redactSecrets` is not idempotent on every
string (see the counterexample); it is idempotent on the spec's own
test vector `"token=abcdEFGH12345678"`, whose redaction is the plain
placeholder and a fixed point of the function. -/
theorem C6_redact_example_idempotent :
    redactSecrets "token=abcdEFGH12345678" = "[REDACTED]" ∧
    redactSecrets (redactSecrets "token=abcdEFGH12345678") =
      redactSecrets "token=abcdEFGH12345678" := by
  decide

end CliTunnel
